import Mathlib

/-!
# Verification of the Garmin node service data-reshaping core

Shallow embedding of the pure data-transformation functions of `server.js`:
the field projector (`pickFields`), the activity-record flattener
(`flattenActivityDetail`), the split-phase classifier
(`transformSplitSummaries`), the workout response builder
(`buildWorkoutResponse`), the pace parser (`parsePaceToMps`), and the
workout-authoring translator (`validateWorkoutPayload` / `buildGarminWorkout`
and their helpers).

JavaScript objects are modelled as association lists `List (String × α)`
(JS objects are ordered string-keyed dictionaries); an absent property is a
failed lookup.  JS numbers are modelled as rationals `ℚ`; `NaN`/`±Infinity`
are folded into `Option.none` at the few places the code immediately filters
them with `Number.isFinite`.  Fallible functions return `Option`.
-/

/-- Property lookup on an association-list object: first binding wins,
`none` models an absent property (JS `undefined`). -/
def lookupKey {α : Type} : List (String × α) → String → Option α
  | [], _ => none
  | (k, v) :: rest, key => if k = key then some v else lookupKey rest key

/-- `pickFields(obj, fields)` from server.js: walks `fields` in order and
copies `obj[key]` for each `key` that is present in `obj` (`key in obj`). -/
def pickFields {α : Type} (obj : List (String × α)) (fields : List String) :
    List (String × α) :=
  fields.filterMap (fun key => (lookupKey obj key).map (fun v => (key, v)))

theorem mem_pickFields_iff {α : Type} (obj : List (String × α))
    (fields : List String) (k : String) (v : α) :
    (k, v) ∈ pickFields obj fields ↔ k ∈ fields ∧ lookupKey obj k = some v := by
  simp only [pickFields, List.mem_filterMap, Option.map_eq_some']
  constructor
  · rintro ⟨key, hkey, w, hw, heq⟩
    injection heq with h1 h2
    subst h1
    subst h2
    exact ⟨hkey, hw⟩
  · rintro ⟨hk, hv⟩
    exact ⟨k, hk, v, hv, rfl⟩

/-- C10: every key of `pickFields o L` is a member of `L`; every key of the
result exists in `o` with the identical value; fields named in `L` but absent
from `o` do not appear in the result; and the empty field list yields the
empty object. -/
theorem claim_C10_pickFields {α : Type} (o : List (String × α)) (L : List String) :
    (∀ k v, (k, v) ∈ pickFields o L → k ∈ L ∧ lookupKey o k = some v) ∧
    (∀ k, k ∈ L → lookupKey o k = none → ∀ v, (k, v) ∉ pickFields o L) ∧
    pickFields o [] = [] := by
  refine ⟨?_, ?_, rfl⟩
  · intro k v hv
    exact (mem_pickFields_iff o L k v).mp hv
  · intro k _ habsent v hv
    have := ((mem_pickFields_iff o L k v).mp hv).2
    rw [habsent] at this
    exact Option.noConfusion this

/-- Witness for C10 at a concrete object and field list. -/
theorem claim_C10_witness :
    (∀ k v, (k, v) ∈ pickFields [("a", 1), ("b", 2)] ["b", "c"] →
      k ∈ ["b", "c"] ∧ lookupKey [("a", 1), ("b", 2)] k = some v) ∧
    (∀ k, k ∈ ["b", "c"] → lookupKey [("a", 1), ("b", 2)] k = none →
      ∀ v, (k, v) ∉ pickFields [("a", 1), ("b", 2)] ["b", "c"]) ∧
    pickFields [("a", 1), ("b", 2)] ([] : List String) = [] :=
  claim_C10_pickFields [("a", 1), ("b", 2)] ["b", "c"]

theorem lookupKey_eq_none_of_not_mem_keys {α : Type} {obj : List (String × α)}
    {key : String} (h : key ∉ obj.map Prod.fst) : lookupKey obj key = none := by
  induction obj with
  | nil => rfl
  | cons p rest ih =>
    obtain ⟨k, v⟩ := p
    simp only [List.map_cons, List.mem_cons] at h
    push_neg at h
    have hne : ¬(k = key) := fun he => h.1 he.symm
    simp only [lookupKey, if_neg hne, ih h.2]

-- --------------------
-- Split-phase classifier (server.js lines 437-505)
-- --------------------

/-- `SPLIT_TYPE_PHASE_MAP` object literal from server.js (own properties, in
declaration order; prototype-chain lookups are outside the model). -/
def SPLIT_TYPE_PHASE_MAP : List (String × String) :=
  [("INTERVAL_WARMUP", "warmup"),
   ("INTERVAL_ACTIVE", "active"),
   ("INTERVAL_RECOVERY", "recovery"),
   ("INTERVAL_COOLDOWN", "cooldown"),
   ("RWD_RUN", "run"),
   ("RWD_WALK", "walk"),
   ("RWD_STAND", "stand")]

/-- One split-summary entry as consumed by `transformSplitSummaries`:
the destructured `splitType` property (`none` models an absent, `undefined`
or `null` value, all of which make `splitType?.toLowerCase()` yield
`undefined`) together with the remaining properties (`...rest`). -/
structure SplitEntry (α : Type) where
  splitType : Option String
  rest : List (String × α)
  deriving DecidableEq

/-- One output entry of `transformSplitSummaries`: the computed leading
`phase` field, the original `splitType`, and the carried-through `rest`. -/
structure PhaseEntry (α : Type) where
  phase : String
  splitType : Option String
  rest : List (String × α)
  deriving DecidableEq

/-- JS `String.prototype.toLowerCase` on the ASCII fragment (per-character
lowering; full-Unicode case mapping agrees on every string this code
handles).  Written over the character list so it reduces definitionally,
unlike `String.toLower`. -/
def jsToLowerCase (s : String) : String := String.mk (s.data.map Char.toLower)

/-- The phase expression from server.js line 501:
`SPLIT_TYPE_PHASE_MAP[splitType] || splitType?.toLowerCase() || "unknown"`.
A map hit is returned (all table values are non-empty, hence truthy); on a
miss the lower-cased string is used unless it is empty (falsy), in which
case — as for an absent `splitType` — the literal `"unknown"` results. -/
def splitPhase (st : Option String) : String :=
  match st with
  | none => "unknown"
  | some s =>
    match lookupKey SPLIT_TYPE_PHASE_MAP s with
    | some p => p
    | none => if jsToLowerCase s = "" then "unknown" else jsToLowerCase s

/-- `transformSplitSummaries` from server.js: `none` models a non-array
input (`null`/`undefined`), for which the guard `!Array.isArray` returns
`[]`; otherwise each entry is mapped to a copy with the leading `phase`. -/
def transformSplitSummaries {α : Type} :
    Option (List (SplitEntry α)) → List (PhaseEntry α)
  | none => []
  | some entries =>
    entries.map (fun e => PhaseEntry.mk (splitPhase e.splitType) e.splitType e.rest)

/-- C8 is false as stated: for the present but empty-string `splitType`,
the claim requires the phase to be the lower-cased `splitType`, i.e. `""`,
but the code's falsy fall-through yields `"unknown"` instead. -/
theorem claim_C8_counterexample :
    (transformSplitSummaries
        (some [SplitEntry.mk (some "") ([] : List (String × Unit))])).map
      PhaseEntry.phase = ["unknown"] ∧
    jsToLowerCase "" = "" ∧
    "" ∉ SPLIT_TYPE_PHASE_MAP.map Prod.fst := by
  refine ⟨rfl, rfl, ?_⟩
  decide

/-- C8 (amended): the classifier returns a same-length, order-preserving
array carrying every original field, where each entry's phase is the fixed
table value for `splitType` when present in the table; otherwise the
lower-cased `splitType` string when that is non-empty; and `"unknown"` when
`splitType` is absent or lower-cases to the empty string (i.e. is `""`);
null/undefined/empty input yields `[]`. -/
theorem claim_C8_transformSplitSummaries (α : Type) (l : List (SplitEntry α)) :
    transformSplitSummaries (some l) =
      l.map (fun e => PhaseEntry.mk (splitPhase e.splitType) e.splitType e.rest) ∧
    transformSplitSummaries (none : Option (List (SplitEntry α))) = [] ∧
    transformSplitSummaries (some ([] : List (SplitEntry α))) = [] ∧
    splitPhase none = "unknown" ∧
    (∀ s p, (s, p) ∈ SPLIT_TYPE_PHASE_MAP → splitPhase (some s) = p) ∧
    (∀ s, s ∉ SPLIT_TYPE_PHASE_MAP.map Prod.fst → jsToLowerCase s ≠ "" →
      splitPhase (some s) = jsToLowerCase s) ∧
    (∀ s, s ∉ SPLIT_TYPE_PHASE_MAP.map Prod.fst → jsToLowerCase s = "" →
      splitPhase (some s) = "unknown") := by
  refine ⟨rfl, rfl, rfl, rfl, ?_, ?_, ?_⟩
  · intro s p hmem
    simp only [SPLIT_TYPE_PHASE_MAP, List.mem_cons, List.not_mem_nil, or_false,
      Prod.mk.injEq] at hmem
    rcases hmem with ⟨rfl, rfl⟩ | ⟨rfl, rfl⟩ | ⟨rfl, rfl⟩ | ⟨rfl, rfl⟩ |
      ⟨rfl, rfl⟩ | ⟨rfl, rfl⟩ | ⟨rfl, rfl⟩ <;> rfl
  · intro s hmiss hne
    simp only [splitPhase, lookupKey_eq_none_of_not_mem_keys hmiss, if_neg hne]
  · intro s hmiss he
    simp only [splitPhase, lookupKey_eq_none_of_not_mem_keys hmiss, if_pos he]

/-- Witness for C8 at the spec's own scenarios plus the empty-input cases. -/
theorem claim_C8_witness :
    transformSplitSummaries
        (some [SplitEntry.mk (some "INTERVAL_WARMUP") ([("duration", 1)])]) =
      [PhaseEntry.mk "warmup" (some "INTERVAL_WARMUP") [("duration", 1)]] ∧
    splitPhase (some "FUTURE_X") = "future_x" ∧
    splitPhase (none) = "unknown" ∧
    transformSplitSummaries (none : Option (List (SplitEntry Nat))) = [] := by
  have h := claim_C8_transformSplitSummaries Nat
    [SplitEntry.mk (some "INTERVAL_WARMUP") ([("duration", 1)])]
  refine ⟨?_, ?_, h.2.2.2.1, h.2.1⟩
  · rw [h.1]
    have hw := h.2.2.2.2.1 "INTERVAL_WARMUP" "warmup" (by decide)
    simp only [List.map_cons, List.map_nil, hw]
  · have hfx := h.2.2.2.2.2.1 "FUTURE_X" (by decide) (by decide)
    rw [hfx]
    decide

-- --------------------
-- Workout semantic group field lists (server.js lines 308-435)
-- --------------------

def WORKOUT_IDENTITY_FIELDS : List String :=
  ["activityId", "activityName", "description", "activityType", "sportTypeId",
   "startTimeLocal", "startTimeGMT", "locationName", "startLatitude",
   "startLongitude", "endLatitude", "endLongitude"]

def WORKOUT_TIMING_FIELDS : List String :=
  ["duration", "movingDuration", "elapsedDuration"]

def WORKOUT_DISTANCE_FIELDS : List String :=
  ["distance", "steps"]

def WORKOUT_PACE_FIELDS : List String :=
  ["averageSpeed", "averageMovingSpeed", "maxSpeed", "avgGradeAdjustedSpeed"]

def WORKOUT_HR_FIELDS : List String :=
  ["averageHR", "maxHR", "minHR"]

def WORKOUT_ELEVATION_FIELDS : List String :=
  ["elevationGain", "elevationLoss", "maxElevation", "minElevation"]

def WORKOUT_DYNAMICS_FIELDS : List String :=
  ["averageRunCadence", "maxRunCadence", "strideLength", "groundContactTime",
   "verticalOscillation", "verticalRatio"]

def WORKOUT_POWER_FIELDS : List String :=
  ["averagePower", "maxPower", "minPower", "normalizedPower", "totalWork"]

def WORKOUT_TRAINING_FIELDS : List String :=
  ["trainingEffect", "anaerobicTrainingEffect", "aerobicTrainingEffectMessage",
   "anaerobicTrainingEffectMessage", "trainingEffectLabel", "activityTrainingLoad"]

def WORKOUT_BODY_FIELDS : List String :=
  ["calories", "avgRespirationRate", "minRespirationRate", "maxRespirationRate",
   "moderateIntensityMinutes", "vigorousIntensityMinutes", "differenceBodyBattery",
   "directWorkoutFeel", "directWorkoutRpe", "waterEstimated",
   "beginPotentialStamina", "endPotentialStamina", "minAvailableStamina"]

def WORKOUT_META_FIELDS : List String :=
  ["lapCount", "hasSplits", "manualActivity", "pr", "favorite"]

def WORKOUT_LAP_FIELDS : List String :=
  ["lapIndex", "distance", "duration", "movingDuration", "startTimeGMT",
   "intensityType", "averageSpeed", "averageMovingSpeed", "maxSpeed",
   "avgGradeAdjustedSpeed", "elevationGain", "elevationLoss", "averageHR",
   "maxHR", "calories", "averageRunCadence", "maxRunCadence",
   "groundContactTime", "strideLength", "verticalOscillation", "verticalRatio",
   "averagePower", "maxPower", "normalizedPower", "totalWork"]

-- --------------------
-- Workout reshaper (server.js lines 507-523)
-- --------------------

/-- The value stored under one of the 13 keys of the workout response:
eleven keys hold a projected object, `workoutStructure` holds the
phase-annotated split list, `laps` holds the list of projected lap objects. -/
inductive GroupVal (α : Type) where
  | group (o : List (String × α))
  | splits (xs : List (PhaseEntry α))
  | lapList (xs : List (List (String × α)))
  deriving DecidableEq

/-- The flat activity record as consumed by `buildWorkoutResponse`:
its scalar properties, plus the `splitSummaries` property held separately
because `buildWorkoutResponse` consumes it structurally
(`transformSplitSummaries(flat.splitSummaries)`); `splitSummaries` appears
in none of the thirteen `WORKOUT_*` field lists, so the separation does not
affect any projection. -/
structure FlatRecord (α : Type) where
  fields : List (String × α)
  splitSummaries : Option (List (SplitEntry α))

/-- `buildWorkoutResponse(flat, laps)` from server.js: the 13-key response
object, in source order. -/
def buildWorkoutResponse {α : Type} (flat : FlatRecord α)
    (laps : List (List (String × α))) : List (String × GroupVal α) :=
  [("identity", GroupVal.group (pickFields flat.fields WORKOUT_IDENTITY_FIELDS)),
   ("timing", GroupVal.group (pickFields flat.fields WORKOUT_TIMING_FIELDS)),
   ("distance", GroupVal.group (pickFields flat.fields WORKOUT_DISTANCE_FIELDS)),
   ("pace", GroupVal.group (pickFields flat.fields WORKOUT_PACE_FIELDS)),
   ("heartRate", GroupVal.group (pickFields flat.fields WORKOUT_HR_FIELDS)),
   ("elevation", GroupVal.group (pickFields flat.fields WORKOUT_ELEVATION_FIELDS)),
   ("runningDynamics", GroupVal.group (pickFields flat.fields WORKOUT_DYNAMICS_FIELDS)),
   ("power", GroupVal.group (pickFields flat.fields WORKOUT_POWER_FIELDS)),
   ("training", GroupVal.group (pickFields flat.fields WORKOUT_TRAINING_FIELDS)),
   ("body", GroupVal.group (pickFields flat.fields WORKOUT_BODY_FIELDS)),
   ("workoutStructure", GroupVal.splits (transformSplitSummaries flat.splitSummaries)),
   ("laps", GroupVal.lapList (laps.map (fun lap => pickFields lap WORKOUT_LAP_FIELDS))),
   ("meta", GroupVal.group (pickFields flat.fields WORKOUT_META_FIELDS))]

/-- The association of each of the 11 object-valued response keys with its
fixed field list, used to state C4. -/
def WORKOUT_GROUP_TABLE : List (String × List String) :=
  [("identity", WORKOUT_IDENTITY_FIELDS),
   ("timing", WORKOUT_TIMING_FIELDS),
   ("distance", WORKOUT_DISTANCE_FIELDS),
   ("pace", WORKOUT_PACE_FIELDS),
   ("heartRate", WORKOUT_HR_FIELDS),
   ("elevation", WORKOUT_ELEVATION_FIELDS),
   ("runningDynamics", WORKOUT_DYNAMICS_FIELDS),
   ("power", WORKOUT_POWER_FIELDS),
   ("training", WORKOUT_TRAINING_FIELDS),
   ("body", WORKOUT_BODY_FIELDS),
   ("meta", WORKOUT_META_FIELDS)]

theorem pickFields_eq_nil_of_absent {α : Type} {o : List (String × α)}
    {L : List String} (h : ∀ k, k ∈ L → lookupKey o k = none) :
    pickFields o L = [] := by
  induction L with
  | nil => rfl
  | cons k rest ih =>
    simp only [pickFields, List.filterMap_cons, h k (List.mem_cons_self k rest),
      Option.map_none']
    exact ih (fun k hk => h k (List.mem_cons_of_mem _ hk))

theorem lookup_group_empty_helper {α : Type} {resp : List (String × GroupVal α)}
    {name : String} {o : List (String × α)} {L : List String}
    (hc : lookupKey resp name = some (GroupVal.group (pickFields o L)))
    (habs : ∀ k, k ∈ L → lookupKey o k = none) :
    lookupKey resp name = some (GroupVal.group []) := by
  rw [hc, pickFields_eq_nil_of_absent habs]

/-- C4: `buildWorkoutResponse` returns exactly the 13 keys
`identity, timing, distance, pace, heartRate, elevation, runningDynamics,
power, training, body, workoutStructure, laps, meta`; each of the 11
object-valued groups is the projection of the flat record through that
group's fixed field list, and equals the empty object (never null, never
omitted) when none of its fields are present. -/
theorem claim_C4_buildWorkoutResponse (α : Type) (flat : FlatRecord α)
    (laps : List (List (String × α))) :
    (buildWorkoutResponse flat laps).map Prod.fst =
      ["identity", "timing", "distance", "pace", "heartRate", "elevation",
       "runningDynamics", "power", "training", "body", "workoutStructure",
       "laps", "meta"] ∧
    (∀ name L, (name, L) ∈ WORKOUT_GROUP_TABLE →
      lookupKey (buildWorkoutResponse flat laps) name =
        some (GroupVal.group (pickFields flat.fields L)) ∧
      ((∀ k, k ∈ L → lookupKey flat.fields k = none) →
        lookupKey (buildWorkoutResponse flat laps) name =
          some (GroupVal.group []))) := by
  refine ⟨rfl, ?_⟩
  intro name L hmem
  simp only [WORKOUT_GROUP_TABLE, List.mem_cons, List.not_mem_nil, or_false,
    Prod.mk.injEq] at hmem
  obtain ⟨rfl, rfl⟩ | h2 := hmem
  · exact ⟨rfl, fun habs => lookup_group_empty_helper rfl habs⟩
  obtain ⟨rfl, rfl⟩ | h3 := h2
  · exact ⟨rfl, fun habs => lookup_group_empty_helper rfl habs⟩
  obtain ⟨rfl, rfl⟩ | h4 := h3
  · exact ⟨rfl, fun habs => lookup_group_empty_helper rfl habs⟩
  obtain ⟨rfl, rfl⟩ | h5 := h4
  · exact ⟨rfl, fun habs => lookup_group_empty_helper rfl habs⟩
  obtain ⟨rfl, rfl⟩ | h6 := h5
  · exact ⟨rfl, fun habs => lookup_group_empty_helper rfl habs⟩
  obtain ⟨rfl, rfl⟩ | h7 := h6
  · exact ⟨rfl, fun habs => lookup_group_empty_helper rfl habs⟩
  obtain ⟨rfl, rfl⟩ | h8 := h7
  · exact ⟨rfl, fun habs => lookup_group_empty_helper rfl habs⟩
  obtain ⟨rfl, rfl⟩ | h9 := h8
  · exact ⟨rfl, fun habs => lookup_group_empty_helper rfl habs⟩
  obtain ⟨rfl, rfl⟩ | h10 := h9
  · exact ⟨rfl, fun habs => lookup_group_empty_helper rfl habs⟩
  obtain ⟨rfl, rfl⟩ | h11 := h10
  · exact ⟨rfl, fun habs => lookup_group_empty_helper rfl habs⟩
  obtain ⟨rfl, rfl⟩ := h11
  exact ⟨rfl, fun habs => lookup_group_empty_helper rfl habs⟩

/-- Witness for C4 at the spec's §8 scenario 10: a flat record with only
`activityId` and `duration` yields a populated identity and timing group,
an empty power group, and empty laps. -/
theorem claim_C4_witness :
    (buildWorkoutResponse (FlatRecord.mk [("activityId", 1), ("duration", 100)] none)
        []).map Prod.fst =
      ["identity", "timing", "distance", "pace", "heartRate", "elevation",
       "runningDynamics", "power", "training", "body", "workoutStructure",
       "laps", "meta"] ∧
    lookupKey (buildWorkoutResponse
        (FlatRecord.mk [("activityId", 1), ("duration", 100)] none) []) "power" =
      some (GroupVal.group []) ∧
    lookupKey (buildWorkoutResponse
        (FlatRecord.mk [("activityId", 1), ("duration", 100)] none) []) "identity" =
      some (GroupVal.group [("activityId", 1)]) := by
  have h := claim_C4_buildWorkoutResponse Nat
    (FlatRecord.mk [("activityId", 1), ("duration", 100)] none) []
  refine ⟨h.1, ?_, ?_⟩
  · exact (h.2 "power" WORKOUT_POWER_FIELDS (by decide)).2 (by decide)
  · have := (h.2 "identity" WORKOUT_IDENTITY_FIELDS (by decide)).1
    rw [this]
    rfl

-- --------------------
-- Record flattener (server.js lines 457-496)
-- --------------------

/-- A JavaScript value.  `undefined` is represented by an absent property /
failed lookup, not by a constructor (at the places this code distinguishes
them the two coincide).  `NaN`/`±Infinity` do not arise in the flattener's
inputs of interest and are excluded from the numeric model. -/
inductive JsVal where
  | null
  | num (q : ℚ)
  | str (s : String)
  | bool (b : Bool)
  | arr (elems : List JsVal)
  | obj (fields : List (String × JsVal))

/-- JS truthiness of a (defined) value. -/
def jsTruthy : JsVal → Bool
  | .null => false
  | .num q => q != 0
  | .str s => s != ""
  | .bool b => b
  | .arr _ => true
  | .obj _ => true

/-- JS truthiness of a possibly-absent value (`undefined` is falsy). -/
def jsTruthyOpt : Option JsVal → Bool
  | none => false
  | some v => jsTruthy v

/-- JS property read `v[key]` for the property names used here: a lookup on
objects, `undefined` on primitives/arrays (none of the accessed names is an
array property; access on `null`/`undefined` cannot occur because every
access site is guarded by a truthiness test). -/
def jsGet (v : JsVal) (key : String) : Option JsVal :=
  match v with
  | .obj fields => lookupKey fields key
  | _ => none

/-- JS property assignment `o[key] = v` on an ordered dictionary: an
existing key is updated in place, a new key is appended. -/
def objSet {α : Type} (o : List (String × α)) (key : String) (v : α) :
    List (String × α) :=
  if (lookupKey o key).isSome then
    o.map (fun p => if p.1 = key then (key, v) else p)
  else o ++ [(key, v)]

/-- JS object spread `{...a, ...b}`: the keys of `a` in order with values
overridden by `b` on conflict, then the keys of `b` not already in `a`. -/
def objSpread {α : Type} (a b : List (String × α)) : List (String × α) :=
  a.map (fun p => (p.1, (lookupKey b p.1).getD p.2)) ++
    b.filter (fun p => !(lookupKey a p.1).isSome)

theorem lookupKey_append {α : Type} (a b : List (String × α)) (key : String) :
    lookupKey (a ++ b) key =
      match lookupKey a key with
      | some v => some v
      | none => lookupKey b key := by
  induction a with
  | nil => rfl
  | cons p rest ih =>
    obtain ⟨k, v⟩ := p
    by_cases h : k = key
    · simp [lookupKey, h]
    · simp [lookupKey, h, ih]

theorem lookupKey_eq_none_of_isSome_eq_false {α : Type}
    {o : List (String × α)} {key : String}
    (h : (lookupKey o key).isSome = false) : lookupKey o key = none := by
  cases hl : lookupKey o key with
  | none => rfl
  | some v => rw [hl] at h; exact absurd h (by simp)

theorem lookup_map_update_self {α : Type} {o : List (String × α)} {key : String}
    (v : α) (h : (lookupKey o key).isSome) :
    lookupKey (o.map (fun p => if p.1 = key then (key, v) else p)) key = some v := by
  induction o with
  | nil => simp [lookupKey] at h
  | cons p rest ih =>
    obtain ⟨k, w⟩ := p
    simp only [List.map_cons]
    by_cases hk : k = key
    · subst hk
      rw [if_pos rfl]
      simp [lookupKey]
    · have htail : (lookupKey rest key).isSome = true := by
        simpa [lookupKey, if_neg hk] using h
      rw [if_neg hk]
      simp only [lookupKey, if_neg hk]
      exact ih htail

theorem lookup_map_update_other {α : Type} (o : List (String × α))
    {key other : String} (v : α) (hne : other ≠ key) :
    lookupKey (o.map (fun p => if p.1 = key then (key, v) else p)) other =
      lookupKey o other := by
  induction o with
  | nil => rfl
  | cons p rest ih =>
    obtain ⟨k, w⟩ := p
    simp only [List.map_cons]
    by_cases hk : k = key
    · subst hk
      rw [if_pos rfl]
      simp only [lookupKey, if_neg (Ne.symm hne)]
      exact ih
    · rw [if_neg hk]
      simp only [lookupKey]
      by_cases ho : k = other
      · rw [if_pos ho, if_pos ho]
      · rw [if_neg ho, if_neg ho]
        exact ih

theorem objSet_lookup_self {α : Type} (o : List (String × α)) (key : String)
    (v : α) : lookupKey (objSet o key v) key = some v := by
  unfold objSet
  by_cases h : (lookupKey o key).isSome
  · rw [if_pos h]
    exact lookup_map_update_self v h
  · rw [if_neg h, lookupKey_append,
      lookupKey_eq_none_of_isSome_eq_false (Bool.eq_false_iff.mpr h)]
    simp [lookupKey]

theorem objSet_lookup_other {α : Type} (o : List (String × α))
    {key other : String} (v : α) (hne : other ≠ key) :
    lookupKey (objSet o key v) other = lookupKey o other := by
  unfold objSet
  by_cases h : (lookupKey o key).isSome
  · rw [if_pos h]
    exact lookup_map_update_other o v hne
  · rw [if_neg h, lookupKey_append]
    cases hl : lookupKey o other with
    | some w => rfl
    | none => simp [lookupKey, if_neg (Ne.symm hne)]

/-- The six nested sub-records destructured out of the raw activity record. -/
def DTO_KEYS : List String :=
  ["summaryDTO", "metadataDTO", "activityTypeDTO", "eventTypeDTO",
   "timeZoneUnitDTO", "accessControlRuleDTO"]

/-- One conditional metadata copy
`if (metadataDTO.src !== undefined) flat.tgt = metadataDTO.src`. -/
def copyOne (flat : List (String × JsVal)) (md : JsVal) (src tgt : String) :
    List (String × JsVal) :=
  match jsGet md src with
  | some v => objSet flat tgt v
  | none => flat

/-- The metadata-copy block of `flattenActivityDetail` (server.js lines
484-493), in source order. -/
def copyMetadataFields (flat0 : List (String × JsVal)) (md : JsVal) :
    List (String × JsVal) :=
  let f1 := copyOne flat0 md "lapCount" "lapCount"
  let f2 := copyOne f1 md "hasSplits" "hasSplits"
  let f3 := copyOne f2 md "manualActivity" "manualActivity"
  let f4 := copyOne f3 md "personalRecord" "pr"
  let f5 := copyOne f4 md "manufacturer" "manufacturer"
  let f6 := copyOne f5 md "favorite" "favorite"
  let f7 := copyOne f6 md "autoCalcCalories" "autoCalcCalories"
  copyOne f7 md "elevationCorrected" "elevationCorrected"

/-- The (source, target) pairs of the metadata-copy block, in source order;
only `personalRecord` is renamed (to `pr`). -/
def META_COPY_PAIRS : List (String × String) :=
  [("lapCount", "lapCount"),
   ("hasSplits", "hasSplits"),
   ("manualActivity", "manualActivity"),
   ("personalRecord", "pr"),
   ("manufacturer", "manufacturer"),
   ("favorite", "favorite"),
   ("autoCalcCalories", "autoCalcCalories"),
   ("elevationCorrected", "elevationCorrected")]

/-- `flattenActivityDetail(raw)` from server.js.  A non-object input is
returned unchanged (`!raw || typeof raw !== "object"`); an array input,
which JS would destructure by index, is outside the model and also passed
through.  For an object: the six DTO sub-records are destructured away, the
remaining top-level fields are spread, the summary sub-record is spread over
them (summary wins), `activityType` is set from `activityTypeDTO` when
truthy and not already truthy in the flat record, and the metadata copy
block runs when `metadataDTO` is truthy.  A truthy non-object `summaryDTO`
spreads nothing (exact for numbers/booleans; a string input, which JS would
spread per character, is outside the model).  The stage up to and including
the `activityType` promotion is factored out as `preMetaFlat`. -/
def preMetaFlat (fields : List (String × JsVal)) : List (String × JsVal) :=
  let topLevel := fields.filter (fun p => !DTO_KEYS.contains p.1)
  let summaryFields := match lookupKey fields "summaryDTO" with
    | some (.obj fs) => fs
    | _ => []
  let flat0 := objSpread topLevel summaryFields
  match lookupKey fields "activityTypeDTO" with
  | some atd =>
    if jsTruthy atd && !jsTruthyOpt (lookupKey flat0 "activityType") then
      objSet flat0 "activityType" atd
    else flat0
  | none => flat0

def flattenActivityDetail (raw : JsVal) : JsVal :=
  match raw with
  | .obj fields =>
    let flat1 := preMetaFlat fields
    let flat2 := match lookupKey fields "metadataDTO" with
      | some md => if jsTruthy md then copyMetadataFields flat1 md else flat1
      | none => flat1
    .obj flat2
  | v => v

theorem copyOne_lookup_self (flat : List (String × JsVal)) {md : JsVal}
    {src : String} (tgt : String) {v : JsVal} (h : jsGet md src = some v) :
    lookupKey (copyOne flat md src tgt) tgt = some v := by
  unfold copyOne
  rw [h]
  exact objSet_lookup_self flat tgt v

theorem copyOne_eq_of_absent (flat : List (String × JsVal)) {md : JsVal}
    {src : String} (tgt : String) (h : jsGet md src = none) :
    copyOne flat md src tgt = flat := by
  unfold copyOne
  rw [h]

theorem copyOne_lookup_other (flat : List (String × JsVal)) (md : JsVal)
    (src : String) {tgt other : String} (hne : other ≠ tgt) :
    lookupKey (copyOne flat md src tgt) other = lookupKey flat other := by
  unfold copyOne
  cases jsGet md src with
  | none => rfl
  | some v => exact objSet_lookup_other flat v hne

theorem lookup_filter_ne {α : Type} (l : List (String × α)) (k0 : String)
    {k : String} (hne : k ≠ k0) :
    lookupKey (l.filter (fun p => p.1 != k0)) k = lookupKey l k := by
  induction l with
  | nil => rfl
  | cons p rest ih =>
    obtain ⟨k1, v⟩ := p
    by_cases h1 : k1 = k0
    · subst h1
      rw [List.filter_cons_of_neg (by simp)]
      simp only [lookupKey, if_neg (Ne.symm hne)]
      exact ih
    · rw [List.filter_cons_of_pos (by simp [h1])]
      simp only [lookupKey]
      by_cases h2 : k1 = k
      · rw [if_pos h2, if_pos h2]
      · rw [if_neg h2, if_neg h2]
        exact ih

theorem lookup_filter_self {α : Type} (l : List (String × α)) (k0 : String) :
    lookupKey (l.filter (fun p => p.1 != k0)) k0 = none := by
  induction l with
  | nil => rfl
  | cons p rest ih =>
    obtain ⟨k1, v⟩ := p
    by_cases h1 : k1 = k0
    · subst h1
      rw [List.filter_cons_of_neg (by simp)]
      exact ih
    · rw [List.filter_cons_of_pos (by simp [h1])]
      simp only [lookupKey, if_neg h1]
      exact ih

theorem filter_filter_subsumed {α : Type} (l : List α) (P Q : α → Bool)
    (h : ∀ a, P a = true → Q a = true) :
    (l.filter Q).filter P = l.filter P := by
  induction l with
  | nil => rfl
  | cons a rest ih =>
    by_cases hq : Q a = true
    · rw [List.filter_cons_of_pos hq]
      by_cases hp : P a = true
      · rw [List.filter_cons_of_pos hp, List.filter_cons_of_pos hp, ih]
      · rw [List.filter_cons_of_neg (by simpa using hp),
          List.filter_cons_of_neg (by simpa using hp), ih]
    · have hp : ¬(P a = true) := fun hpa => hq (h a hpa)
      rw [List.filter_cons_of_neg (by simpa using hq),
        List.filter_cons_of_neg (by simpa using hp), ih]

/-- Removing the `metadataDTO` property does not change the flattener's
pre-metadata stage: `metadataDTO` is one of the destructured DTO keys, so it
never reaches the spread, and the other lookups are unaffected. -/
theorem preMetaFlat_erase_metadata (fields : List (String × JsVal)) :
    preMetaFlat (fields.filter (fun p => p.1 != "metadataDTO")) =
      preMetaFlat fields := by
  unfold preMetaFlat
  rw [filter_filter_subsumed fields (fun p => !DTO_KEYS.contains p.1)
      (fun p => p.1 != "metadataDTO") ?_]
  · rw [lookup_filter_ne fields "metadataDTO" (by decide),
      lookup_filter_ne fields "metadataDTO" (by decide)]
  · intro p hp
    simp only [DTO_KEYS, Bool.not_eq_true'] at hp
    simp only [bne_iff_ne, ne_eq]
    intro he
    rw [List.contains_eq_any_beq] at hp
    simp [he] at hp

theorem flatten_obj_metadata (fields : List (String × JsVal))
    (mfs : List (String × JsVal))
    (hmd : lookupKey fields "metadataDTO" = some (JsVal.obj mfs)) :
    flattenActivityDetail (JsVal.obj fields) =
      JsVal.obj (copyMetadataFields (preMetaFlat fields) (JsVal.obj mfs)) := by
  simp only [flattenActivityDetail, hmd, jsTruthy, ite_true]

theorem flatten_obj_no_metadata (fields : List (String × JsVal)) :
    flattenActivityDetail (JsVal.obj (fields.filter (fun p => p.1 != "metadataDTO"))) =
      JsVal.obj (preMetaFlat fields) := by
  simp only [flattenActivityDetail, lookup_filter_self fields "metadataDTO",
    preMetaFlat_erase_metadata fields]

/-- The metadata-copy block is the fold of `copyOne` over the copy pairs. -/
theorem copyMetadataFields_eq_foldl (flat : List (String × JsVal)) (md : JsVal) :
    copyMetadataFields flat md =
      META_COPY_PAIRS.foldl (fun f p => copyOne f md p.1 p.2) flat := rfl

theorem foldl_copy_lookup_other (pairs : List (String × String))
    (flat : List (String × JsVal)) (md : JsVal) {k : String}
    (hk : k ∉ pairs.map Prod.snd) :
    lookupKey (pairs.foldl (fun f p => copyOne f md p.1 p.2) flat) k =
      lookupKey flat k := by
  induction pairs generalizing flat with
  | nil => rfl
  | cons p rest ih =>
    simp only [List.map_cons, List.mem_cons] at hk
    push_neg at hk
    simp only [List.foldl_cons]
    rw [ih _ hk.2, copyOne_lookup_other _ _ _ hk.1]

theorem foldl_copy_lookup_copied (pairs : List (String × String))
    (flat : List (String × JsVal)) (mfs : List (String × JsVal))
    {src tgt : String} {v : JsVal}
    (hnd : (pairs.map Prod.snd).Nodup) (hmem : (src, tgt) ∈ pairs)
    (hv : lookupKey mfs src = some v) :
    lookupKey (pairs.foldl (fun f p => copyOne f (JsVal.obj mfs) p.1 p.2) flat)
      tgt = some v := by
  induction pairs generalizing flat with
  | nil => exact absurd hmem (List.not_mem_nil _)
  | cons p rest ih =>
    obtain ⟨p1, p2⟩ := p
    simp only [List.map_cons, List.nodup_cons] at hnd
    simp only [List.foldl_cons]
    rcases List.mem_cons.mp hmem with heq | hmem2
    · injection heq with e1 e2
      subst e1
      subst e2
      rw [foldl_copy_lookup_other rest _ _ hnd.1]
      exact copyOne_lookup_self _ _ (show jsGet (JsVal.obj mfs) src = some v from hv)
    · exact ih _ hnd.2 hmem2

theorem foldl_copy_lookup_uncopied (pairs : List (String × String))
    (flat : List (String × JsVal)) (mfs : List (String × JsVal))
    {src tgt : String}
    (hnd : (pairs.map Prod.snd).Nodup) (hmem : (src, tgt) ∈ pairs)
    (hnone : lookupKey mfs src = none) :
    lookupKey (pairs.foldl (fun f p => copyOne f (JsVal.obj mfs) p.1 p.2) flat)
      tgt = lookupKey flat tgt := by
  induction pairs generalizing flat with
  | nil => exact absurd hmem (List.not_mem_nil _)
  | cons p rest ih =>
    obtain ⟨p1, p2⟩ := p
    simp only [List.map_cons, List.nodup_cons] at hnd
    simp only [List.foldl_cons]
    rcases List.mem_cons.mp hmem with heq | hmem2
    · injection heq with e1 e2
      subst e1
      subst e2
      rw [copyOne_eq_of_absent _ _ (show jsGet (JsVal.obj mfs) src = none from hnone),
        foldl_copy_lookup_other rest _ _ hnd.1]
    · have htgt : tgt ∈ rest.map Prod.snd :=
        List.mem_map.mpr ⟨(src, tgt), hmem2, rfl⟩
      have hne : tgt ≠ p2 := fun he => hnd.1 (he ▸ htgt)
      rw [ih _ hnd.2 hmem2, copyOne_lookup_other _ _ _ hne]

/-- C6: for every raw activity record carrying a `metadataDTO` sub-record,
the flattener copies into the flat output exactly the metadata fields
`lapCount, hasSplits, manualActivity, personalRecord (renamed to pr),
manufacturer, favorite, autoCalcCalories, elevationCorrected`, each only
when present (not `undefined`) in the metadata, and copies no other
metadata field (removing `metadataDTO` changes no key outside the eight
copy targets); in particular a present `favorite` value is copied verbatim
— the flattener does populate `favorite`, contrary to spec §9. -/
theorem claim_C6_flattenActivityDetail (fields mfs : List (String × JsVal))
    (hmd : lookupKey fields "metadataDTO" = some (JsVal.obj mfs)) :
    (∀ src tgt v, (src, tgt) ∈ META_COPY_PAIRS → lookupKey mfs src = some v →
      jsGet (flattenActivityDetail (JsVal.obj fields)) tgt = some v) ∧
    (∀ v, lookupKey mfs "favorite" = some v →
      jsGet (flattenActivityDetail (JsVal.obj fields)) "favorite" = some v) ∧
    (∀ k, k ∉ META_COPY_PAIRS.map Prod.snd →
      jsGet (flattenActivityDetail (JsVal.obj fields)) k =
        jsGet (flattenActivityDetail
          (JsVal.obj (fields.filter (fun p => p.1 != "metadataDTO")))) k) ∧
    (∀ src tgt, (src, tgt) ∈ META_COPY_PAIRS → lookupKey mfs src = none →
      jsGet (flattenActivityDetail (JsVal.obj fields)) tgt =
        jsGet (flattenActivityDetail
          (JsVal.obj (fields.filter (fun p => p.1 != "metadataDTO")))) tgt) := by
  rw [flatten_obj_metadata fields mfs hmd, flatten_obj_no_metadata fields]
  simp only [jsGet]
  refine ⟨?_, ?_, ?_, ?_⟩
  · intro src tgt v hp hv
    rw [copyMetadataFields_eq_foldl]
    exact foldl_copy_lookup_copied META_COPY_PAIRS _ mfs (by decide) hp hv
  · intro v hv
    rw [copyMetadataFields_eq_foldl]
    exact foldl_copy_lookup_copied META_COPY_PAIRS _ mfs (by decide) (by decide) hv
  · intro k hk
    rw [copyMetadataFields_eq_foldl]
    exact foldl_copy_lookup_other META_COPY_PAIRS _ _ hk
  · intro src tgt hp hn
    rw [copyMetadataFields_eq_foldl]
    exact foldl_copy_lookup_uncopied META_COPY_PAIRS _ mfs (by decide) hp hn

/-- Witness for C6: a record whose metadata carries `favorite` and
`lapCount` flattens with both copied (and `favorite` equal to the metadata
value). -/
theorem claim_C6_witness :
    jsGet (flattenActivityDetail (JsVal.obj
      [("activityId", JsVal.num 7),
       ("metadataDTO", JsVal.obj
         [("favorite", JsVal.bool true), ("lapCount", JsVal.num 3),
          ("uuid", JsVal.str "x")])])) "favorite" = some (JsVal.bool true) ∧
    jsGet (flattenActivityDetail (JsVal.obj
      [("activityId", JsVal.num 7),
       ("metadataDTO", JsVal.obj
         [("favorite", JsVal.bool true), ("lapCount", JsVal.num 3),
          ("uuid", JsVal.str "x")])])) "lapCount" = some (JsVal.num 3) := by
  have h := claim_C6_flattenActivityDetail
    [("activityId", JsVal.num 7),
     ("metadataDTO", JsVal.obj
       [("favorite", JsVal.bool true), ("lapCount", JsVal.num 3),
        ("uuid", JsVal.str "x")])]
    [("favorite", JsVal.bool true), ("lapCount", JsVal.num 3),
     ("uuid", JsVal.str "x")] rfl
  exact ⟨h.2.1 (JsVal.bool true) rfl,
    h.1 "lapCount" "lapCount" (JsVal.num 3) (by decide) rfl⟩

-- --------------------
-- Pace parsing (server.js lines 545-555)
-- --------------------

/-- Digit-string value, most significant first (the standard positional
reading used by JS numeric-literal coercion). -/
def natOfDigits (cs : List Char) : ℕ :=
  cs.foldl (fun acc c => 10 * acc + (c.toNat - 48)) 0

/-- JS `Number(string)` coercion, modelled on the decimal fragment:
optional surrounding whitespace, optional sign, then decimal digits with an
optional fraction part (at least one digit overall); the empty /
whitespace-only string coerces to `0`.  Exponent, hex/octal/binary and
`Infinity` forms — which no `"M:SS"` pace part uses — are folded into
`none` together with `NaN`; `parsePaceToMps` discards non-finite values
immediately (`Number.isFinite`), so the merge is exact at its use site. -/
def jsNumber (s : String) : Option ℚ :=
  let cs := ((s.data.dropWhile Char.isWhitespace).reverse.dropWhile
    Char.isWhitespace).reverse
  if cs.isEmpty then some 0
  else
    let signBody : ℚ × List Char :=
      match cs with
      | '-' :: rest => (-1, rest)
      | '+' :: rest => (1, rest)
      | _ => (1, cs)
    let sign := signBody.1
    let body := signBody.2
    let intPart := body.takeWhile Char.isDigit
    let rest1 := body.dropWhile Char.isDigit
    match rest1 with
    | [] => if intPart.isEmpty then none else some (sign * natOfDigits intPart)
    | '.' :: fracPart =>
      if fracPart.all Char.isDigit && !(intPart.isEmpty && fracPart.isEmpty) then
        some (sign * ((natOfDigits intPart : ℚ) +
          (natOfDigits fracPart : ℚ) / (10 : ℚ) ^ fracPart.length))
      else none
    | _ => none

/-- JS `String.prototype.split` with the one-character separator `":"`,
written structurally over the character list (`String.splitOn` is
well-founded-recursive and does not reduce definitionally). -/
def splitOnColonChars : List Char → List (List Char)
  | [] => [[]]
  | c :: rest =>
    match splitOnColonChars rest with
    | [] => [[c]]
    | h :: t => if c = ':' then [] :: h :: t else (c :: h) :: t

/-- `paceStr.split(":")`. -/
def jsSplitOnColon (s : String) : List String :=
  (splitOnColonChars s.data).map String.mk

/-- `parsePaceToMps(paceStr)` from server.js: split on `":"`, require
exactly two parts, coerce both with `Number`, reject non-finite
(`jsNumber = none`) or negative parts, reject a non-positive total, and
return `1000 / totalSec`.  The body after the two-part check is the helper
`paceFromParts`. -/
def paceFromParts (p0 p1 : String) : Option ℚ :=
  match jsNumber p0, jsNumber p1 with
  | some mins, some secs =>
    if mins < 0 ∨ secs < 0 then none
    else if mins * 60 + secs ≤ 0 then none
    else some (1000 / (mins * 60 + secs))
  | _, _ => none

def parsePaceToMps (paceStr : String) : Option ℚ :=
  match jsSplitOnColon paceStr with
  | [p0, p1] => paceFromParts p0 p1
  | _ => none

theorem parsePace_not_two_parts {s : String}
    (h : (jsSplitOnColon s).length ≠ 2) : parsePaceToMps s = none := by
  unfold parsePaceToMps
  cases hsp : jsSplitOnColon s with
  | nil => rfl
  | cons p0 t0 =>
    cases t0 with
    | nil => rfl
    | cons p1 t1 =>
      cases t1 with
      | nil =>
        exfalso
        apply h
        rw [hsp]
        rfl
      | cons p2 t2 => rfl

theorem parsePace_eq_parts {s p0 p1 : String}
    (hsp : jsSplitOnColon s = [p0, p1]) :
    parsePaceToMps s = paceFromParts p0 p1 := by
  unfold parsePaceToMps
  rw [hsp]

theorem parsePace_num_none {s p0 p1 : String}
    (hsp : jsSplitOnColon s = [p0, p1])
    (h : jsNumber p0 = none ∨ jsNumber p1 = none) : parsePaceToMps s = none := by
  rw [parsePace_eq_parts hsp]
  unfold paceFromParts
  rcases h with h0 | h1
  · rw [h0]
  · cases hjp : jsNumber p0 with
    | none => rfl
    | some m => rw [h1]

theorem parsePace_rejected {s p0 p1 : String} {m q : ℚ}
    (hsp : jsSplitOnColon s = [p0, p1])
    (h0 : jsNumber p0 = some m) (h1 : jsNumber p1 = some q)
    (h : m < 0 ∨ q < 0 ∨ m * 60 + q ≤ 0) : parsePaceToMps s = none := by
  rw [parsePace_eq_parts hsp]
  simp only [paceFromParts, h0, h1]
  by_cases hneg : m < 0 ∨ q < 0
  · rw [if_pos hneg]
  · rw [if_neg hneg]
    have hle : m * 60 + q ≤ 0 := by
      rcases h with hm | hq | hle
      · exact absurd (Or.inl hm) hneg
      · exact absurd (Or.inr hq) hneg
      · exact hle
    rw [if_pos hle]

theorem parsePace_accepted {s p0 p1 : String} {m q : ℚ}
    (hsp : jsSplitOnColon s = [p0, p1])
    (h0 : jsNumber p0 = some m) (h1 : jsNumber p1 = some q)
    (hm : 0 ≤ m) (hq : 0 ≤ q) (hpos : 0 < m * 60 + q) :
    parsePaceToMps s = some (1000 / (m * 60 + q)) := by
  rw [parsePace_eq_parts hsp]
  simp only [paceFromParts, h0, h1]
  rw [if_neg (by push_neg; exact ⟨hm, hq⟩), if_neg (by push_neg; exact hpos)]

theorem jsNumber_five : jsNumber "5" = some 5 := by
  have h : jsNumber "5" = some (1 * ((5 : ℕ) : ℚ)) := rfl
  rw [h]
  norm_num

theorem jsNumber_zero : jsNumber "0" = some 0 := by
  have h : jsNumber "0" = some (1 * ((0 : ℕ) : ℚ)) := rfl
  rw [h]
  norm_num

theorem jsNumber_zerozero : jsNumber "00" = some 0 := by
  have h : jsNumber "00" = some (1 * ((0 : ℕ) : ℚ)) := rfl
  rw [h]
  norm_num

theorem parsePace_five_colon_zerozero :
    parsePaceToMps "5:00" = some (1000 / 300) := by
  have h := @parsePace_accepted "5:00" "5" "00" _ _
    rfl jsNumber_five jsNumber_zerozero (by norm_num) (by norm_num) (by norm_num)
  rw [h]
  norm_num

/-- C9 is false as stated in its concrete part: `parsePaceToMps "5:00"` is
`1000/300 = 10/3 = 3.33333…`, which differs from the claimed `3.3333` by
`1/30000 ≈ 3.33e-5`, more than the claimed `1e-5` tolerance. -/
theorem claim_C9_counterexample :
    parsePaceToMps "5:00" = some (1000 / 300) ∧
    (1000 / 300 : ℚ) - 33333 / 10000 > 1 / 100000 := by
  refine ⟨parsePace_five_colon_zerozero, ?_⟩
  norm_num

/-- C9 (amended): `parsePaceToMps` returns `none` exactly when the string
does not split on `":"` into two parts, a part does not coerce to a finite
number, a part is negative, or the total seconds `minutes*60 + seconds` is
not strictly positive; otherwise it returns `1000 / totalSeconds`.
`"5:00"` yields exactly `1000/300 = 3.33333…`, within `1e-4` (not `1e-5`)
of `3.3333`; `"0:00"`, `"abc"` and `"5"` yield `none`. -/
theorem claim_C9_parsePaceToMps :
    (∀ s : String, (jsSplitOnColon s).length ≠ 2 → parsePaceToMps s = none) ∧
    (∀ s p0 p1 : String, jsSplitOnColon s = [p0, p1] →
      (jsNumber p0 = none ∨ jsNumber p1 = none) → parsePaceToMps s = none) ∧
    (∀ (s p0 p1 : String) (m q : ℚ), jsSplitOnColon s = [p0, p1] →
      jsNumber p0 = some m → jsNumber p1 = some q →
      (m < 0 ∨ q < 0 ∨ m * 60 + q ≤ 0) → parsePaceToMps s = none) ∧
    (∀ (s p0 p1 : String) (m q : ℚ), jsSplitOnColon s = [p0, p1] →
      jsNumber p0 = some m → jsNumber p1 = some q →
      0 ≤ m → 0 ≤ q → 0 < m * 60 + q →
      parsePaceToMps s = some (1000 / (m * 60 + q))) ∧
    parsePaceToMps "5:00" = some (1000 / 300) ∧
    (0 ≤ (1000 / 300 : ℚ) - 33333 / 10000 ∧
      (1000 / 300 : ℚ) - 33333 / 10000 ≤ 1 / 10000) ∧
    parsePaceToMps "0:00" = none ∧
    parsePaceToMps "abc" = none ∧
    parsePaceToMps "5" = none := by
  refine ⟨fun s h => parsePace_not_two_parts h,
    fun s p0 p1 hsp h => parsePace_num_none hsp h,
    fun s p0 p1 m q hsp h0 h1 h => parsePace_rejected hsp h0 h1 h,
    fun s p0 p1 m q hsp h0 h1 hm hq hpos =>
      parsePace_accepted hsp h0 h1 hm hq hpos,
    parsePace_five_colon_zerozero, ⟨by norm_num, by norm_num⟩, ?_, rfl, rfl⟩
  exact @parsePace_rejected "0:00" "0" "00" _ _
    rfl jsNumber_zero jsNumber_zerozero (by norm_num)

theorem jsNumber_four : jsNumber "4" = some 4 := by
  have h : jsNumber "4" = some (1 * ((4 : ℕ) : ℚ)) := rfl
  rw [h]
  norm_num

theorem jsNumber_thirty : jsNumber "30" = some 30 := by
  have h : jsNumber "30" = some (1 * ((30 : ℕ) : ℚ)) := rfl
  rw [h]
  norm_num

/-- Witness for C9 at `"4:30"`: the accepted branch of the characterization
applied to a concrete input. -/
theorem claim_C9_witness :
    jsSplitOnColon "4:30" = ["4", "30"] ∧
    parsePaceToMps "4:30" = some (1000 / (4 * 60 + 30)) := by
  refine ⟨rfl, ?_⟩
  exact claim_C9_parsePaceToMps.2.2.2.1 "4:30" "4" "30" 4 30 rfl
    jsNumber_four jsNumber_thirty (by norm_num) (by norm_num) (by norm_num)

-- --------------------
-- Workout creation: translation (server.js lines 528-756)
-- --------------------

/-- `x || null` on an optional string: a falsy value (absent or `""`)
becomes null (`none`). -/
def jsOrNone (o : Option String) : Option String :=
  match o with
  | some s => if s = "" then none else some s
  | none => none

structure SportType where
  sportTypeId : ℕ
  sportTypeKey : String
  deriving DecidableEq

/-- `SPORT_TYPE_MAP` from server.js. -/
def SPORT_TYPE_MAP : List (String × SportType) :=
  [("running", SportType.mk 1 "running"),
   ("cycling", SportType.mk 2 "cycling"),
   ("swimming", SportType.mk 4 "swimming"),
   ("strength", SportType.mk 5 "strength_training"),
   ("cardio", SportType.mk 6 "cardio_training")]

structure StepType where
  stepTypeId : ℕ
  stepTypeKey : String
  displayOrder : ℕ
  deriving DecidableEq

/-- `STEP_TYPE_MAP` from server.js. -/
def STEP_TYPE_MAP : List (String × StepType) :=
  [("warmup", StepType.mk 1 "warmup" 1),
   ("interval", StepType.mk 3 "interval" 3),
   ("recovery", StepType.mk 4 "recovery" 4),
   ("rest", StepType.mk 5 "rest" 5),
   ("cooldown", StepType.mk 2 "cooldown" 2),
   ("other", StepType.mk 7 "other" 7)]

/-- `buildGarminSportType(sport)`: `SPORT_TYPE_MAP[sport] || null` — an
unknown or absent sport yields `null`. -/
def buildGarminSportType (sport : Option String) : Option SportType :=
  match sport with
  | some s => lookupKey SPORT_TYPE_MAP s
  | none => none

/-- A DSL duration object: a loose record of the fields the code reads
(each possibly absent).  Numeric fields are `none` when absent or not a
finite number (`Number.isFinite` is the only consumer of them). -/
structure JDuration where
  type : Option String
  seconds : Option ℚ
  meters : Option ℚ
  calories : Option ℚ
  bpm : Option ℚ
  comparison : Option String
  deriving DecidableEq

/-- A DSL target object, same conventions as `JDuration`. -/
structure JTarget where
  type : Option String
  minPerKm : Option String
  maxPerKm : Option String
  zone : Option ℚ
  min : Option ℚ
  max : Option ℚ
  deriving DecidableEq

/-- A DSL workout step.  `steps` is the child list of a repeat step
(`none` models an absent or non-array value).  Non-object steps, which
validation rejects with "Each step must be an object", are outside the
model. -/
inductive JStep where
  | mk (type : Option String) (duration : Option JDuration)
      (target : Option JTarget) (notes : Option String)
      (iterations : Option ℚ) (steps : Option (List JStep))

def JStep.type : JStep → Option String
  | .mk t _ _ _ _ _ => t

def JStep.duration : JStep → Option JDuration
  | .mk _ d _ _ _ _ => d

def JStep.target : JStep → Option JTarget
  | .mk _ _ t _ _ _ => t

def JStep.notes : JStep → Option String
  | .mk _ _ _ n _ _ => n

def JStep.iterations : JStep → Option ℚ
  | .mk _ _ _ _ i _ => i

def JStep.steps : JStep → Option (List JStep)
  | .mk _ _ _ _ _ s => s

/-- A DSL workout document (non-object payloads, rejected up front, are
outside the model). -/
structure JWorkout where
  name : Option String
  description : Option String
  sport : Option String
  steps : Option (List JStep)

structure EndCondition where
  conditionTypeId : ℕ
  conditionTypeKey : String
  displayable : Bool
  displayOrder : ℕ
  deriving DecidableEq

/-- A compiled duration descriptor.  `preferredEndConditionUnit` holds the
`unitKey` when the JS object carries `{unitKey: "kilometer"}`, `none` for
`null`.  The JS `time` case also carries a constant `endConditionZone:
null`, omitted here as it is constant across all cases that set it. -/
structure GarminDuration where
  endCondition : EndCondition
  endConditionValue : Option ℚ
  endConditionCompare : Option String
  preferredEndConditionUnit : Option String
  deriving DecidableEq

/-- `duration.comparison || "gt"`. -/
def comparisonOrGt (c : Option String) : String :=
  match c with
  | some s => if s = "" then "gt" else s
  | none => "gt"

/-- `buildGarminDuration(duration)` from server.js: absent duration or
absent/falsy/unknown `type` yields `null`; otherwise the fixed end-condition
descriptor for the kind, with the triggering value carried as-is. -/
def buildGarminDuration (duration : Option JDuration) : Option GarminDuration :=
  match duration with
  | none => none
  | some d =>
    match d.type with
    | none => none
    | some t =>
      if t = "" then none
      else if t = "time" then
        some (GarminDuration.mk (EndCondition.mk 2 "time" true 1) d.seconds none none)
      else if t = "distance" then
        some (GarminDuration.mk (EndCondition.mk 3 "distance" true 3) d.meters none
          (some "kilometer"))
      else if t = "calories" then
        some (GarminDuration.mk (EndCondition.mk 4 "calories" true 4) d.calories none none)
      else if t = "lapButton" then
        some (GarminDuration.mk (EndCondition.mk 1 "lap.button" true 1) none none none)
      else if t = "heartRate" then
        some (GarminDuration.mk (EndCondition.mk 6 "heart.rate" true 6) d.bpm
          (some (comparisonOrGt d.comparison)) none)
      else none

structure TargetType where
  workoutTargetTypeId : ℕ
  workoutTargetTypeKey : String
  displayOrder : ℕ
  deriving DecidableEq

/-- A compiled target descriptor.  The JS objects carry different key sets
per case; `buildGarminStep` normalizes all of them with `?? null`, which the
uniform `Option` fields capture (`none` = key absent or `null`). -/
structure GarminTarget where
  targetType : TargetType
  targetValueOne : Option ℚ
  targetValueTwo : Option ℚ
  targetValueUnit : Option String
  zoneNumber : Option ℚ
  deriving DecidableEq

def noTargetType : TargetType := TargetType.mk 1 "no.target" 1

def paceZoneTargetType : TargetType := TargetType.mk 6 "pace.zone" 6

def hrZoneTargetType : TargetType := TargetType.mk 4 "heart.rate.zone" 4

def powerZoneTargetType : TargetType := TargetType.mk 2 "power.zone" 2

def cadenceTargetType : TargetType := TargetType.mk 3 "cadence" 3

/-- `buildGarminTarget(target)` from server.js: an absent target or
absent/falsy `type` yields the default no-target descriptor; `pace`
converts both bounds with the pace parser (the DSL's `minPerKm` conversion
in position one, `maxPerKm` in position two, with no reordering) and fails
(`null`) when either conversion is falsy; zone targets carry `zoneNumber`;
range targets carry min/max as given; an unknown type yields `null`.
JS reads `target.minPerKm` directly and would throw inside `split` on an
absent bound; the model's `getD ""` folds that case into the `null` result
(validation excludes it for all compiled workouts). -/
def buildGarminTargetObj (t : JTarget) : Option GarminTarget :=
  match t.type with
  | none => some (GarminTarget.mk noTargetType none none none none)
  | some ty =>
    if ty = "" then some (GarminTarget.mk noTargetType none none none none)
    else if ty = "none" then some (GarminTarget.mk noTargetType none none none none)
    else if ty = "pace" then
      match parsePaceToMps (t.minPerKm.getD ""), parsePaceToMps (t.maxPerKm.getD "") with
      | some minMps, some maxMps =>
        if minMps = 0 ∨ maxMps = 0 then none
        else some (GarminTarget.mk paceZoneTargetType (some minMps) (some maxMps)
          none none)
      | _, _ => none
    else if ty = "heartRateZone" then
      some (GarminTarget.mk hrZoneTargetType none none none t.zone)
    else if ty = "heartRate" then
      some (GarminTarget.mk hrZoneTargetType t.min t.max none none)
    else if ty = "powerZone" then
      some (GarminTarget.mk powerZoneTargetType none none none t.zone)
    else if ty = "power" then
      some (GarminTarget.mk powerZoneTargetType t.min t.max none none)
    else if ty = "cadence" then
      some (GarminTarget.mk cadenceTargetType t.min t.max none none)
    else none

def buildGarminTarget (target : Option JTarget) : Option GarminTarget :=
  match target with
  | none => some (GarminTarget.mk noTargetType none none none none)
  | some t => buildGarminTargetObj t

/-- `STEP_TYPE_MAP[step.type]` (an absent type indexes as `undefined`,
yielding `undefined`). -/
def stepTypeOf (t : Option String) : Option StepType :=
  match t with
  | some s => lookupKey STEP_TYPE_MAP s
  | none => none

structure EquipmentType where
  displayOrder : Option ℕ
  equipmentTypeId : Option ℕ
  equipmentTypeKey : Option String
  deriving DecidableEq

/-- A compiled executable step (JS `type: "ExecutableStepDTO"` node, the
`GarminNode.exec` constructor).  The spread duration and target fields are
inlined as in the JS object; `strokeType: {}` (a constant empty object) is
omitted. -/
structure GarminExecStep where
  stepId : ℕ
  stepOrder : ℕ
  childStepId : Option ℕ
  description : Option String
  stepType : StepType
  endCondition : EndCondition
  endConditionValue : Option ℚ
  endConditionCompare : Option String
  preferredEndConditionUnit : Option String
  targetType : TargetType
  targetValueOne : Option ℚ
  targetValueTwo : Option ℚ
  targetValueUnit : Option String
  zoneNumber : Option ℚ
  secondaryTargetType : Option String
  secondaryTargetValueOne : Option ℚ
  secondaryTargetValueTwo : Option ℚ
  secondaryTargetValueUnit : Option String
  secondaryZoneNumber : Option ℚ
  equipmentType : EquipmentType
  exerciseName : Option String
  category : Option String
  workoutProvider : Option String
  providerExerciseSourceId : Option String
  weightValue : Option ℚ
  weightUnit : Option String
  stepAudioNote : Option String
  deriving DecidableEq

/-- `buildGarminStep(step, stepId)` from server.js: `null` when the step
type is not in `STEP_TYPE_MAP` or the duration or target build fails;
otherwise the executable-step node with the duration and target descriptors
merged in and the unsupported provider fields defaulted to `null`. -/
def buildGarminStep (step : JStep) (stepId : ℕ) : Option GarminExecStep :=
  (stepTypeOf step.type).bind fun stepType =>
  (buildGarminDuration step.duration).bind fun dur =>
  (buildGarminTarget step.target).map fun tgt =>
    GarminExecStep.mk stepId stepId none (jsOrNone step.notes) stepType
      dur.endCondition dur.endConditionValue dur.endConditionCompare
      dur.preferredEndConditionUnit
      tgt.targetType tgt.targetValueOne tgt.targetValueTwo tgt.targetValueUnit
      tgt.zoneNumber
      none none none none none (EquipmentType.mk none none none)
      none none none none none none none

/-- The inner loop of `buildGarminRepeatGroup`: builds the child steps in
order, assigning consecutive ids from `childId`, and returns the built
children with the next free id; `null` propagates from any failed child. -/
def buildGarminChildSteps : List JStep → ℕ → Option (List GarminExecStep × ℕ)
  | [], childId => some ([], childId)
  | c :: rest, childId =>
    match buildGarminStep c childId with
    | none => none
    | some built =>
      match buildGarminChildSteps rest (childId + 1) with
      | none => none
      | some (bs, n) => some (built :: bs, n)

def repeatStepType : StepType := StepType.mk 6 "repeat" 6

/-- A compiled repeat-group node before the caller strips the `_nextId`
bookkeeping field (held here as `nextId`). -/
structure GarminRepeatGroupRaw where
  stepId : ℕ
  stepOrder : ℕ
  childStepId : Option ℕ
  stepType : StepType
  numberOfIterations : Option ℚ
  workoutSteps : List GarminExecStep
  nextId : ℕ
  deriving DecidableEq

/-- `buildGarminRepeatGroup(step, stepId)` from server.js: children are
built starting at `stepId + 1`; `_nextId` records the next free id
(`1 (group) + children` ids consumed).  JS iterates `step.steps` with
`for..of` and would throw on a non-array value; `getD []` totalizes that
case (validation guarantees an array for every compiled workout). -/
def buildGarminRepeatGroup (step : JStep) (stepId : ℕ) : Option GarminRepeatGroupRaw :=
  (buildGarminChildSteps (step.steps.getD []) (stepId + 1)).map fun r =>
    GarminRepeatGroupRaw.mk stepId stepId none repeatStepType step.iterations r.1 r.2

/-- A repeat-group node as pushed by `buildGarminWorkout` (after
`const { _nextId, ...cleanGroup } = group`). -/
structure GarminRepeatGroup where
  stepId : ℕ
  stepOrder : ℕ
  childStepId : Option ℕ
  stepType : StepType
  numberOfIterations : Option ℚ
  workoutSteps : List GarminExecStep
  deriving DecidableEq

/-- `const { _nextId, ...cleanGroup } = group`. -/
def stripNextId (g : GarminRepeatGroupRaw) : GarminRepeatGroup :=
  GarminRepeatGroup.mk g.stepId g.stepOrder g.childStepId g.stepType
    g.numberOfIterations g.workoutSteps

/-- One node of the compiled step tree: an executable step
(`ExecutableStepDTO`) or a repeat group (`RepeatGroupDTO`). -/
inductive GarminNode where
  | exec (s : GarminExecStep)
  | repeatGroup (g : GarminRepeatGroup)
  deriving DecidableEq

/-- The step loop of `buildGarminWorkout`: walks the DSL steps with a
running id counter, dispatching repeats to the group builder (continuing at
the group's `_nextId`) and other steps to the step builder (incrementing by
one); any `null` aborts the whole loop. -/
def buildGarminSteps : List JStep → ℕ → Option (List GarminNode × ℕ)
  | [], stepId => some ([], stepId)
  | step :: rest, stepId =>
    if step.type = some "repeat" then
      match buildGarminRepeatGroup step stepId with
      | none => none
      | some group =>
        match buildGarminSteps rest group.nextId with
        | none => none
        | some (ns, n) => some (GarminNode.repeatGroup (stripNextId group) :: ns, n)
    else
      match buildGarminStep step stepId with
      | none => none
      | some built =>
        match buildGarminSteps rest (stepId + 1) with
        | none => none
        | some (ns, n) => some (GarminNode.exec built :: ns, n)

structure WorkoutSegment where
  segmentOrder : ℕ
  sportType : Option SportType
  workoutSteps : List GarminNode
  deriving DecidableEq

/-- The compiled workout document.  `estimatedDistanceUnitKey` models the
JS `estimatedDistanceUnit: { unitKey: null }` object by its `unitKey`. -/
structure GarminWorkout where
  sportType : Option SportType
  subSportType : Option String
  workoutName : Option String
  description : Option String
  workoutSegments : List WorkoutSegment
  estimatedDurationInSecs : ℚ
  estimatedDistanceInMeters : ℚ
  estimateType : Option String
  avgTrainingSpeed : Option ℚ
  estimatedDistanceUnitKey : Option String
  isWheelchair : Bool
  deriving DecidableEq

/-- `buildGarminWorkout(workout)` from server.js.  Note that the sport-type
lookup result is NOT null-checked: an unknown sport embeds `sportType:
null` in the result instead of aborting the build.  JS iterates
`workout.steps` with `for..of` and would throw on a non-array value;
`getD []` totalizes that case (validation guarantees a non-empty array). -/
def buildGarminWorkout (workout : JWorkout) : Option GarminWorkout :=
  let sportType := buildGarminSportType workout.sport
  match buildGarminSteps (workout.steps.getD []) 1 with
  | none => none
  | some (steps, _) =>
    some (GarminWorkout.mk sportType none workout.name
      (jsOrNone workout.description)
      [WorkoutSegment.mk 1 sportType steps]
      0 0 none none none false)

-- --------------------
-- Workout validation (server.js lines 758-858)
-- --------------------

/-- `VALID_SPORTS = new Set(Object.keys(SPORT_TYPE_MAP))`. -/
def VALID_SPORTS : List String := SPORT_TYPE_MAP.map Prod.fst

/-- `VALID_STEP_TYPES = new Set([...Object.keys(STEP_TYPE_MAP), "repeat"])`. -/
def VALID_STEP_TYPES : List String := STEP_TYPE_MAP.map Prod.fst ++ ["repeat"]

def VALID_DURATION_TYPES : List String :=
  ["time", "distance", "calories", "lapButton", "heartRate"]

def VALID_TARGET_TYPES : List String :=
  ["none", "pace", "heartRateZone", "heartRate", "powerZone", "power", "cadence"]

/-- `set.has(x)` where `x` may be `undefined` (`none`): always false then. -/
def hasType (tys : List String) (t : Option String) : Bool :=
  match t with
  | some s => tys.contains s
  | none => false

/-- `!Number.isFinite(v) || v <= 0` for an optional numeric field
(`none` covering absent and non-finite values). -/
def badPositive (q : Option ℚ) : Bool :=
  match q with
  | none => true
  | some v => decide (v ≤ 0)

/-- `comparison && comparison !== "gt" && comparison !== "lt"`:
a falsy comparison (absent or `""`) passes; otherwise it must be
`"gt"` or `"lt"`. -/
def badComparison (c : Option String) : Bool :=
  match c with
  | none => false
  | some s => if s = "" then false else decide (s ≠ "gt" ∧ s ≠ "lt")

/-- `!parsePaceToMps(x)`: null or zero is falsy (the parser never returns
zero, but the test is on the value). -/
def jsFalsyPace (q : Option ℚ) : Bool :=
  match q with
  | none => true
  | some v => decide (v = 0)

/-- `!Number.isFinite(zone) || zone < 1 || zone > 5`. -/
def badHrZone (z : Option ℚ) : Bool :=
  match z with
  | none => true
  | some v => decide (v < 1 ∨ v > 5)

/-- `!Number.isFinite(zone) || zone < 1`. -/
def badPowerZone (z : Option ℚ) : Bool :=
  match z with
  | none => true
  | some v => decide (v < 1)

/-- `!Number.isFinite(iterations) || iterations < 1` — note: despite the
error message, there is no integrality check (`Number.isInteger` is never
called), so a finite non-integer `iterations ≥ 1` passes. -/
def badIterations (it : Option ℚ) : Bool :=
  match it with
  | none => true
  | some v => decide (v < 1)

/-- `!Number.isFinite(min) || !Number.isFinite(max)` for range targets. -/
def badRange (lo hi : Option ℚ) : Bool := lo.isNone || hi.isNone

def invalidStepTypeMsg (t : Option String) : String :=
  "Invalid step type \"" ++ t.getD "undefined" ++
    "\". Must be one of: warmup, interval, recovery, rest, cooldown, other, repeat"

def invalidDurationMsg : String :=
  "Invalid duration type. Must be one of: time, distance, calories, lapButton, heartRate"

def invalidTargetMsg : String :=
  "Invalid target type. Must be one of: none, pace, heartRateZone, heartRate, powerZone, power, cadence"

/-- The "Regular step" section of `validateWorkoutStep` (duration and
target checks, in source order). -/
def validateRegularStep (step : JStep) : Option String :=
  match step.duration with
  | none => some invalidDurationMsg
  | some d =>
    if !hasType VALID_DURATION_TYPES d.type then some invalidDurationMsg
    else if (d.type == some "time") && badPositive d.seconds then
      some "Time duration requires a positive seconds value"
    else if (d.type == some "distance") && badPositive d.meters then
      some "Distance duration requires a positive meters value"
    else if (d.type == some "calories") && badPositive d.calories then
      some "Calories duration requires a positive calories value"
    else if (d.type == some "heartRate") && badPositive d.bpm then
      some "Heart rate duration requires a positive bpm value"
    else if (d.type == some "heartRate") && badComparison d.comparison then
      some "Heart rate duration comparison must be \"gt\" or \"lt\""
    else
      match step.target with
      | none => some invalidTargetMsg
      | some t =>
        if !hasType VALID_TARGET_TYPES t.type then some invalidTargetMsg
        else if (t.type == some "pace") &&
            jsFalsyPace (parsePaceToMps (t.minPerKm.getD "")) then
          some "Pace target requires valid minPerKm (e.g. \"5:30\")"
        else if (t.type == some "pace") &&
            jsFalsyPace (parsePaceToMps (t.maxPerKm.getD "")) then
          some "Pace target requires valid maxPerKm (e.g. \"5:00\")"
        else if (t.type == some "heartRateZone") && badHrZone t.zone then
          some "Heart rate zone must be 1-5"
        else if (t.type == some "heartRate") && badRange t.min t.max then
          some "Heart rate target requires min and max BPM values"
        else if (t.type == some "powerZone") && badPowerZone t.zone then
          some "Power zone must be a positive integer"
        else if (t.type == some "power") && badRange t.min t.max then
          some "Power target requires min and max watt values"
        else if (t.type == some "cadence") && badRange t.min t.max then
          some "Cadence target requires min and max values"
        else none

/-- `validateWorkoutStep(child, false)`, unfolded once: under
`allowRepeat = false` a repeat child errors before recursing, so the JS
recursion never exceeds one level and this is its exact child-level
behavior. -/
def validateChildStep (c : JStep) : Option String :=
  if !hasType VALID_STEP_TYPES c.type then some (invalidStepTypeMsg c.type)
  else if c.type == some "repeat" then some "Nested repeats are not allowed"
  else validateRegularStep c

/-- The `for (const child of step.steps)` loop: first child error wins. -/
def firstChildError : List JStep → Option String
  | [] => none
  | c :: rest =>
    match validateChildStep c with
    | some e => some e
    | none => firstChildError rest

/-- `validateWorkoutStep(step, allowRepeat)` from server.js (top level;
the one-level recursion into children is `validateChildStep`).  Non-object
steps, rejected with "Each step must be an object", are outside the
model. -/
def validateWorkoutStep (step : JStep) (allowRepeat : Bool) : Option String :=
  if !hasType VALID_STEP_TYPES step.type then some (invalidStepTypeMsg step.type)
  else if step.type == some "repeat" then
    if !allowRepeat then some "Nested repeats are not allowed"
    else if badIterations step.iterations then
      some "Repeat iterations must be a positive integer"
    else
      match step.steps with
      | none => some "Repeat must contain at least one step"
      | some [] => some "Repeat must contain at least one step"
      | some children => firstChildError children
  else validateRegularStep step

/-- `validateWorkoutStep` at `allowRepeat = false` is exactly the child
validator (the unfolding above is faithful). -/
theorem validateWorkoutStep_false (c : JStep) :
    validateWorkoutStep c false = validateChildStep c := by
  unfold validateWorkoutStep validateChildStep
  by_cases h1 : hasType VALID_STEP_TYPES c.type <;>
    by_cases h2 : c.type == some "repeat" <;>
      simp [h1, h2]

structure ValidationResult where
  ok : Bool
  error : Option String
  deriving DecidableEq

/-- `str.trim()`, written structurally over the character list
(`String.trim` is position-arithmetic-based and does not reduce
definitionally). -/
def jsTrim (s : String) : String :=
  String.mk (((s.data.dropWhile Char.isWhitespace).reverse.dropWhile
    Char.isWhitespace).reverse)

def invalidSportMsg (sport : Option String) : String :=
  "Invalid sport \"" ++ sport.getD "undefined" ++
    "\". Must be one of: running, cycling, swimming, strength, cardio"

/-- The indexed step loop of `validateWorkoutPayload`: first error wins,
prefixed with the 1-based step number. -/
def validateStepsFrom : List JStep → ℕ → Option String
  | [], _ => none
  | s :: rest, i =>
    match validateWorkoutStep s true with
    | some e => some ("Step " ++ toString (i + 1) ++ ": " ++ e)
    | none => validateStepsFrom rest (i + 1)

/-- `validateWorkoutPayload(workout)` from server.js (non-object payloads,
rejected with "Missing workout object", are outside the model). -/
def validateWorkoutPayload (workout : JWorkout) : ValidationResult :=
  match workout.name with
  | none => ValidationResult.mk false (some "Workout name is required")
  | some nm =>
    if jsTrim nm = "" then ValidationResult.mk false (some "Workout name is required")
    else if !hasType VALID_SPORTS workout.sport then
      ValidationResult.mk false (some (invalidSportMsg workout.sport))
    else
      match workout.steps with
      | none => ValidationResult.mk false (some "Workout must contain at least one step")
      | some [] => ValidationResult.mk false (some "Workout must contain at least one step")
      | some steps =>
        match validateStepsFrom steps 0 with
        | some e => ValidationResult.mk false (some e)
        | none => ValidationResult.mk true none

/-- A valid (non-repeat) child step used in concrete repeat inputs. -/
def sampleIntervalStep : JStep :=
  JStep.mk (some "interval")
    (some (JDuration.mk (some "time") (some 60) none none none none))
    (some (JTarget.mk (some "none") none none none none none))
    none none none

/-- C7 against the code: `validateWorkoutStep` accepts a repeat step whose
`iterations` is the non-integer `3/2` (the check is
`Number.isFinite(iterations) && iterations >= 1`, with no integrality
test, despite the error message "Repeat iterations must be a positive
integer"); values below 1, such as `0`, are rejected with that message. -/
theorem claim_C7_validateRepeatIterations :
    validateWorkoutStep
      (JStep.mk (some "repeat") none none none (some (3 / 2))
        (some [sampleIntervalStep])) true = none ∧
    ((3 : ℚ) / 2).den = 2 ∧
    (1 : ℚ) ≤ 3 / 2 ∧
    validateWorkoutStep
      (JStep.mk (some "repeat") none none none (some 0)
        (some [sampleIntervalStep])) true =
      some "Repeat iterations must be a positive integer" := by
  have hiter : badIterations (some ((3 : ℚ) / 2)) = false := by
    simp only [badIterations]
    rw [decide_eq_false_iff_not]
    norm_num
  have hchild : validateChildStep sampleIntervalStep = none := rfl
  have hzero : badIterations (some (0 : ℚ)) = true := by
    simp only [badIterations]
    rw [decide_eq_true_eq]
    norm_num
  refine ⟨?_, by norm_num [Rat.den], by norm_num, ?_⟩
  · simp [validateWorkoutStep, JStep.type, JStep.iterations, JStep.steps,
      hiter, firstChildError, hchild, hasType, VALID_STEP_TYPES, STEP_TYPE_MAP]
  · simp [validateWorkoutStep, JStep.type, JStep.iterations, JStep.steps,
      hzero, hasType, VALID_STEP_TYPES, STEP_TYPE_MAP]

/-- C3 is false as stated: for the unknown sport `"rowing"` the sport-type
lookup yields null, yet `buildGarminWorkout` does not abort — it returns a
complete workout whose `sportType` is null. -/
theorem claim_C3_counterexample :
    buildGarminSportType (some "rowing") = none ∧
    (buildGarminWorkout
      (JWorkout.mk (some "Row") none (some "rowing") (some []))).isSome = true ∧
    Option.map GarminWorkout.sportType
      (buildGarminWorkout (JWorkout.mk (some "Row") none (some "rowing") (some []))) =
      some none :=
  ⟨rfl, rfl, rfl⟩

/-- C3 (amended): for every workout whose sport is not a key of the sport
table, the sport-type lookup yields null, but `buildGarminWorkout` does not
abort on it: whenever the build succeeds (the step builds determine that),
the resulting workout and its single segment carry `sportType = null`. -/
theorem claim_C3_buildGarminWorkout (w : JWorkout)
    (h : ∀ s, w.sport = some s → s ∉ SPORT_TYPE_MAP.map Prod.fst) :
    buildGarminSportType w.sport = none ∧
    ((buildGarminWorkout w).isSome = true →
      Option.map GarminWorkout.sportType (buildGarminWorkout w) = some none ∧
      Option.map (fun g => g.workoutSegments.map WorkoutSegment.sportType)
        (buildGarminWorkout w) = some [none]) := by
  have hsport : buildGarminSportType w.sport = none := by
    cases hs : w.sport with
    | none => rfl
    | some s =>
      show lookupKey SPORT_TYPE_MAP s = none
      exact lookupKey_eq_none_of_not_mem_keys (h s hs)
  refine ⟨hsport, fun hIsSome => ?_⟩
  simp only [buildGarminWorkout] at hIsSome ⊢
  cases hb : buildGarminSteps (w.steps.getD []) 1 with
  | none =>
    rw [hb] at hIsSome
    exact absurd hIsSome (by simp)
  | some r =>
    obtain ⟨steps, n⟩ := r
    simp [hsport]

/-- Witness for C3 at a concrete unknown sport. -/
theorem claim_C3_witness :
    buildGarminSportType (some "curling") = none ∧
    (buildGarminWorkout
      (JWorkout.mk (some "C") none (some "curling") (some []))).isSome = true ∧
    Option.map GarminWorkout.sportType
      (buildGarminWorkout (JWorkout.mk (some "C") none (some "curling") (some []))) =
      some none := by
  have h := claim_C3_buildGarminWorkout
    (JWorkout.mk (some "C") none (some "curling") (some []))
    (by
      intro s hs
      injection hs with he
      subst he
      decide)
  exact ⟨h.1, rfl, (h.2 rfl).1⟩

theorem parsePace_five_thirty : parsePaceToMps "5:30" = some (1000 / 330) := by
  have h := @parsePace_accepted "5:30" "5" "30" _ _
    rfl jsNumber_five jsNumber_thirty (by norm_num) (by norm_num) (by norm_num)
  rw [h]
  norm_num

/-- The pace branch of `buildGarminTarget` with both parses succeeding and
non-falsy: position one is the `minPerKm` conversion, position two the
`maxPerKm` conversion, as-is. -/
theorem buildGarminTarget_pace (t : JTarget) {a b : ℚ}
    (hty : t.type = some "pace")
    (ha : parsePaceToMps (t.minPerKm.getD "") = some a)
    (hb : parsePaceToMps (t.maxPerKm.getD "") = some b)
    (ha0 : a ≠ 0) (hb0 : b ≠ 0) :
    buildGarminTarget (some t) =
      some (GarminTarget.mk paceZoneTargetType (some a) (some b) none none) := by
  show buildGarminTargetObj t =
    some (GarminTarget.mk paceZoneTargetType (some a) (some b) none none)
  unfold buildGarminTargetObj
  rw [hty]
  simp only [String.reduceEq, reduceIte]
  rw [ha, hb]
  simp only []
  rw [if_neg (by push_neg; exact ⟨ha0, hb0⟩)]

/-- C2 is false as stated: with `minPerKm = "5:00"` (the faster bound) and
`maxPerKm = "5:30"`, `buildGarminTarget` emits `targetValueOne = 1000/300`
and `targetValueTwo = 1000/330` without reordering, and `targetValueTwo <
targetValueOne` — the compiled bounds are not ascending. -/
theorem claim_C2_counterexample :
    buildGarminTarget
        (some (JTarget.mk (some "pace") (some "5:00") (some "5:30") none none none)) =
      some (GarminTarget.mk paceZoneTargetType (some (1000 / 300)) (some (1000 / 330))
        none none) ∧
    (1000 / 330 : ℚ) < 1000 / 300 := by
  constructor
  · exact buildGarminTarget_pace _ rfl parsePace_five_colon_zerozero
      parsePace_five_thirty (by norm_num) (by norm_num)
  · norm_num

/-- C2 (amended): for every pace target both of whose bounds parse,
`buildGarminTarget` emits the `minPerKm` conversion as `targetValueOne` and
the `maxPerKm` conversion as `targetValueTwo`, with no reordering; since
`1000/x < 1000/y ↔ y < x` for positive totals, `targetValueOne <
targetValueTwo` holds exactly when `minPerKm` denotes the strictly slower
pace (more seconds per km), as in the spec's example `minPerKm = "5:30"`,
`maxPerKm = "5:00"`, where `targetValueOne = 1000/330 < 1000/300 =
targetValueTwo`. -/
theorem claim_C2_buildGarminTarget :
    (∀ (t : JTarget) (a b : ℚ), t.type = some "pace" →
      parsePaceToMps (t.minPerKm.getD "") = some a →
      parsePaceToMps (t.maxPerKm.getD "") = some b →
      a ≠ 0 → b ≠ 0 →
      buildGarminTarget (some t) =
        some (GarminTarget.mk paceZoneTargetType (some a) (some b) none none)) ∧
    (∀ x y : ℚ, 0 < x → 0 < y → (1000 / x < 1000 / y ↔ y < x)) ∧
    buildGarminTarget
        (some (JTarget.mk (some "pace") (some "5:30") (some "5:00") none none none)) =
      some (GarminTarget.mk paceZoneTargetType (some (1000 / 330)) (some (1000 / 300))
        none none) ∧
    (1000 / 330 : ℚ) < 1000 / 300 := by
  refine ⟨fun t a b hty ha hb ha0 hb0 => buildGarminTarget_pace t hty ha hb ha0 hb0,
    fun x y hx hy => div_lt_div_iff_of_pos_left (by norm_num) hx hy, ?_, by norm_num⟩
  exact buildGarminTarget_pace _ rfl parsePace_five_thirty
    parsePace_five_colon_zerozero (by norm_num) (by norm_num)

theorem jsNumber_six : jsNumber "6" = some 6 := by
  have h : jsNumber "6" = some (1 * ((6 : ℕ) : ℚ)) := rfl
  rw [h]
  norm_num

theorem parsePace_six_colon_zerozero :
    parsePaceToMps "6:00" = some (1000 / 360) := by
  have h := @parsePace_accepted "6:00" "6" "00" _ _
    rfl jsNumber_six jsNumber_zerozero (by norm_num) (by norm_num) (by norm_num)
  rw [h]
  norm_num

/-- Witness for C2 at `minPerKm = "6:00"`, `maxPerKm = "5:00"`. -/
theorem claim_C2_witness :
    buildGarminTarget
        (some (JTarget.mk (some "pace") (some "6:00") (some "5:00") none none none)) =
      some (GarminTarget.mk paceZoneTargetType (some (1000 / 360)) (some (1000 / 300))
        none none) ∧
    ((1000 / 360 : ℚ) < 1000 / 300 ↔ (300 : ℚ) < 360) := by
  refine ⟨?_, claim_C2_buildGarminTarget.2.1 360 300 (by norm_num) (by norm_num)⟩
  exact claim_C2_buildGarminTarget.1
    (JTarget.mk (some "pace") (some "6:00") (some "5:00") none none none)
    (1000 / 360) (1000 / 300) rfl parsePace_six_colon_zerozero
    parsePace_five_colon_zerozero (by norm_num) (by norm_num)

-- --------------------
-- Step-id numbering (C1)
-- --------------------

/-- The ids carried by one node in document order: the node's own id,
followed (for a repeat group) by its children's ids. -/
def nodeIds : GarminNode → List ℕ
  | .exec s => [s.stepId]
  | .repeatGroup g => g.stepId :: g.workoutSteps.map GarminExecStep.stepId

/-- All ids of a step tree in document (pre-order) order. -/
def treeIds (ns : List GarminNode) : List ℕ := (ns.map nodeIds).flatten

theorem treeIds_nil : treeIds [] = [] := rfl

theorem treeIds_cons (n : GarminNode) (ns : List GarminNode) :
    treeIds (n :: ns) = nodeIds n ++ treeIds ns := by
  simp [treeIds]

theorem buildGarminStep_stepId {s : JStep} {k : ℕ} {b : GarminExecStep}
    (h : buildGarminStep s k = some b) : b.stepId = k := by
  unfold buildGarminStep at h
  rcases hst : stepTypeOf s.type with _ | st
  · rw [hst] at h
    exact Option.noConfusion h
  · rw [hst] at h
    rcases hd : buildGarminDuration s.duration with _ | dur
    · rw [hd] at h
      exact Option.noConfusion h
    · rw [hd] at h
      rcases ht : buildGarminTarget s.target with _ | tgt
      · rw [ht] at h
        exact Option.noConfusion h
      · rw [ht] at h
        simp only [Option.some_bind, Option.map_some'] at h
        injection h with hb
        rw [← hb]

theorem buildGarminChildSteps_spec :
    ∀ (l : List JStep) (k : ℕ) (cs : List GarminExecStep) (n : ℕ),
      buildGarminChildSteps l k = some (cs, n) →
      cs.map GarminExecStep.stepId = List.range' k cs.length ∧ n = k + cs.length := by
  intro l
  induction l with
  | nil =>
    intro k cs n h
    simp only [buildGarminChildSteps] at h
    injection h with h'
    injection h' with h1 h2
    subst h1
    subst h2
    simp
  | cons c rest ih =>
    intro k cs n h
    simp only [buildGarminChildSteps] at h
    rcases hb : buildGarminStep c k with _ | built
    · rw [hb] at h
      exact Option.noConfusion h
    · rw [hb] at h
      rcases hr : buildGarminChildSteps rest (k + 1) with _ | r
      · rw [hr] at h
        exact Option.noConfusion h
      · obtain ⟨bs, m⟩ := r
        rw [hr] at h
        injection h with h'
        injection h' with h1 h2
        subst h1
        subst h2
        obtain ⟨hmap, hn⟩ := ih (k + 1) bs m hr
        refine ⟨?_, by simp only [List.length_cons]; omega⟩
        simp only [List.map_cons, List.length_cons, hmap,
          buildGarminStep_stepId hb, List.range'_succ]

theorem buildGarminRepeatGroup_spec {step : JStep} {k : ℕ}
    {group : GarminRepeatGroupRaw}
    (h : buildGarminRepeatGroup step k = some group) :
    group.stepId = k ∧
    group.workoutSteps.map GarminExecStep.stepId =
      List.range' (k + 1) group.workoutSteps.length ∧
    group.nextId = k + 1 + group.workoutSteps.length := by
  unfold buildGarminRepeatGroup at h
  obtain ⟨r, hcs, hgr⟩ := Option.map_eq_some'.mp h
  obtain ⟨cs, m⟩ := r
  obtain ⟨hmap, hm⟩ := buildGarminChildSteps_spec _ _ _ _ hcs
  subst hgr
  refine ⟨rfl, hmap, ?_⟩
  show m = k + 1 + cs.length
  omega

theorem buildGarminSteps_spec :
    ∀ (l : List JStep) (k : ℕ) (ns : List GarminNode) (n : ℕ),
      buildGarminSteps l k = some (ns, n) →
      treeIds ns = List.range' k (treeIds ns).length ∧
      n = k + (treeIds ns).length ∧
      (∀ g, GarminNode.repeatGroup g ∈ ns →
        g.workoutSteps.map GarminExecStep.stepId =
          List.range' (g.stepId + 1) g.workoutSteps.length) := by
  intro l
  induction l with
  | nil =>
    intro k ns n h
    simp only [buildGarminSteps] at h
    injection h with h'
    injection h' with h1 h2
    subst h1
    subst h2
    simp [treeIds_nil]
  | cons step rest ih =>
    intro k ns n h
    simp only [buildGarminSteps] at h
    by_cases hrep : step.type = some "repeat"
    · rw [if_pos hrep] at h
      rcases hg : buildGarminRepeatGroup step k with _ | group
      · rw [hg] at h
        exact Option.noConfusion h
      · rw [hg] at h
        simp only [] at h
        rcases hr : buildGarminSteps rest group.nextId with _ | r
        · rw [hr] at h
          exact Option.noConfusion h
        · obtain ⟨ns2, n2⟩ := r
          rw [hr] at h
          simp only [] at h
          injection h with h'
          injection h' with h1 h2
          subst h1
          subst h2
          obtain ⟨hgid, hgmap, hgnext⟩ := buildGarminRepeatGroup_spec hg
          obtain ⟨htids, hn2, hgroups⟩ := ih group.nextId ns2 n2 hr
          have hni : nodeIds (GarminNode.repeatGroup (stripNextId group)) =
              k :: List.range' (k + 1) group.workoutSteps.length := by
            simp only [nodeIds, stripNextId, hgmap, hgid]
          constructor
          · rw [treeIds_cons, hni, htids, hgnext]
            rw [List.cons_append,
              List.range'_append_1 (k + 1) group.workoutSteps.length
                (treeIds ns2).length]
            simp only [List.length_cons, List.length_range']
            rw [List.range'_succ]
          constructor
          · rw [treeIds_cons, hni]
            simp only [List.length_append, List.length_cons, List.length_range']
            rw [htids] at hn2
            rw [List.length_range'] at hn2
            omega
          · intro g hmem
            rcases List.mem_cons.mp hmem with heq | htail
            · injection heq with he
              subst he
              simpa [stripNextId, hgid] using hgmap
            · exact hgroups g htail
    · rw [if_neg hrep] at h
      rcases hb : buildGarminStep step k with _ | built
      · rw [hb] at h
        exact Option.noConfusion h
      · rw [hb] at h
        simp only [] at h
        rcases hr : buildGarminSteps rest (k + 1) with _ | r
        · rw [hr] at h
          exact Option.noConfusion h
        · obtain ⟨ns2, n2⟩ := r
          rw [hr] at h
          simp only [] at h
          injection h with h'
          injection h' with h1 h2
          subst h1
          subst h2
          obtain ⟨htids, hn2, hgroups⟩ := ih (k + 1) ns2 n2 hr
          have hni : nodeIds (GarminNode.exec built) = [k] := by
            simp [nodeIds, buildGarminStep_stepId hb]
          constructor
          · rw [treeIds_cons, hni, htids]
            rw [List.singleton_append]
            simp only [List.length_cons, List.length_range']
            rw [List.range'_succ]
          constructor
          · rw [treeIds_cons, hni]
            simp only [List.length_append, List.length_cons, List.length_nil]
            omega
          · intro g hmem
            rcases List.mem_cons.mp hmem with heq | htail
            · exact absurd heq (by simp)
            · exact hgroups g htail

/-- The id lists of the compiled workout's segments (one per segment; the
compiler always emits exactly one segment). -/
def workoutStepIdLists (w : JWorkout) : List (List ℕ) :=
  match buildGarminWorkout w with
  | some g => g.workoutSegments.map fun seg => treeIds seg.workoutSteps
  | none => []

/-- The repeat-group nodes of a step tree. -/
def groupsOf (ns : List GarminNode) : List GarminRepeatGroup :=
  ns.filterMap fun n =>
    match n with
    | .repeatGroup g => some g
    | _ => none

/-- All repeat-group nodes of the compiled workout. -/
def workoutGroups (w : JWorkout) : List GarminRepeatGroup :=
  match buildGarminWorkout w with
  | some g => (g.workoutSegments.map fun seg => groupsOf seg.workoutSteps).flatten
  | none => []

theorem mem_groupsOf {g : GarminRepeatGroup} {ns : List GarminNode} :
    g ∈ groupsOf ns ↔ GarminNode.repeatGroup g ∈ ns := by
  simp only [groupsOf, List.mem_filterMap]
  constructor
  · rintro ⟨node, hmem, hsome⟩
    cases node with
    | exec s => exact Option.noConfusion hsome
    | repeatGroup g2 =>
      injection hsome with he
      subst he
      exact hmem
  · intro hmem
    exact ⟨GarminNode.repeatGroup g, hmem, rfl⟩

/-- C1: in every successfully compiled workout, the step ids of every
segment's tree, read in document (pre-order) order with a repeat group's id
preceding its children's, are exactly `1, 2, …, N` — a single pre-order
counter starting at 1 that increments once per leaf and once per container
and continues into a container's children before resuming after it (hence
unique and strictly increasing) — and every repeat group's children carry
the consecutive ids starting at the group's id + 1. -/
theorem claim_C1_stepIds (w : JWorkout)
    (h : (buildGarminWorkout w).isSome = true) :
    (∀ ids ∈ workoutStepIdLists w, ids = List.range' 1 ids.length) ∧
    (∀ g ∈ workoutGroups w, g.workoutSteps.map GarminExecStep.stepId =
      List.range' (g.stepId + 1) g.workoutSteps.length) := by
  simp only [buildGarminWorkout] at h
  cases hb : buildGarminSteps (w.steps.getD []) 1 with
  | none =>
    rw [hb] at h
    exact absurd h (by simp)
  | some r =>
    obtain ⟨steps, n⟩ := r
    obtain ⟨htids, hn, hgroups⟩ := buildGarminSteps_spec _ _ _ _ hb
    have hlists : workoutStepIdLists w = [treeIds steps] := by
      unfold workoutStepIdLists
      simp only [buildGarminWorkout]
      rw [hb]
      rfl
    have hgs : workoutGroups w = groupsOf steps := by
      unfold workoutGroups
      simp only [buildGarminWorkout]
      rw [hb]
      show ([groupsOf steps]).flatten = groupsOf steps
      simp
    constructor
    · intro ids hmem
      rw [hlists] at hmem
      rcases List.mem_singleton.mp hmem with rfl
      exact htids
    · intro g hmem
      rw [hgs] at hmem
      exact hgroups g (mem_groupsOf.mp hmem)

def lapButtonDuration : JDuration :=
  JDuration.mk (some "lapButton") none none none none none

def noneTarget : JTarget := JTarget.mk (some "none") none none none none none

/-- The spec's §8 scenario: warmup, repeat of 3 iterations with 2 children,
cooldown. -/
def exampleRepeatWorkout : JWorkout :=
  JWorkout.mk (some "Interval Day") none (some "running")
    (some [JStep.mk (some "warmup") (some lapButtonDuration) (some noneTarget)
        none none none,
      JStep.mk (some "repeat") none none none (some 3)
        (some [JStep.mk (some "interval") (some lapButtonDuration)
            (some noneTarget) none none none,
          JStep.mk (some "recovery") (some lapButtonDuration) (some noneTarget)
            none none none]),
      JStep.mk (some "cooldown") (some lapButtonDuration) (some noneTarget)
        none none none])

/-- Witness for C1: the `[warmup, repeat-of-2-children, cooldown]` workout
compiles to the id tree `[1, 2, {3,4}, 5]`. -/
theorem claim_C1_witness :
    (buildGarminWorkout exampleRepeatWorkout).isSome = true ∧
    workoutStepIdLists exampleRepeatWorkout = [[1, 2, 3, 4, 5]] ∧
    (workoutGroups exampleRepeatWorkout).map GarminRepeatGroup.stepId = [2] ∧
    (workoutGroups exampleRepeatWorkout).map
      (fun g => g.workoutSteps.map GarminExecStep.stepId) = [[3, 4]] ∧
    [1, 2, 3, 4, 5] = List.range' 1 ([1, 2, 3, 4, 5] : List ℕ).length := by
  have h := claim_C1_stepIds exampleRepeatWorkout rfl
  refine ⟨rfl, rfl, rfl, rfl, ?_⟩
  exact h.1 [1, 2, 3, 4, 5] (by rw [show workoutStepIdLists exampleRepeatWorkout =
    [[1, 2, 3, 4, 5]] from rfl]; exact List.mem_singleton.mpr rfl)

-- --------------------
-- Validation implies successful compilation (C5)
-- --------------------

theorem hasType_eq_true {tys : List String} {t : Option String}
    (h : hasType tys t = true) : ∃ s, t = some s ∧ s ∈ tys := by
  cases t with
  | none => exact absurd h (by simp [hasType])
  | some s =>
    refine ⟨s, rfl, ?_⟩
    have h2 := List.contains_iff_exists_mem_beq.mp h
    obtain ⟨a, ha, hbeq⟩ := h2
    rw [eq_of_beq hbeq]
    exact ha

theorem cond_error_eq_none {c : Bool} {m : String} {rest : Option String}
    (h : (if c = true then some m else rest) = none) : c = false ∧ rest = none := by
  cases c
  · exact ⟨rfl, by simpa using h⟩
  · simp at h

theorem jsFalsyPace_eq_false {o : Option ℚ} (h : jsFalsyPace o = false) :
    ∃ a, o = some a ∧ a ≠ 0 := by
  cases o with
  | none => exact absurd h (by simp [jsFalsyPace])
  | some v =>
    refine ⟨v, rfl, ?_⟩
    simpa [jsFalsyPace] using h

theorem buildGarminDuration_isSome {d : JDuration}
    (h : hasType VALID_DURATION_TYPES d.type = true) :
    (buildGarminDuration (some d)).isSome = true := by
  obtain ⟨ty, hty, hmem⟩ := hasType_eq_true h
  unfold buildGarminDuration
  simp only []
  rw [hty]
  simp only [VALID_DURATION_TYPES, List.mem_cons, List.not_mem_nil, or_false] at hmem
  rcases hmem with rfl | rfl | rfl | rfl | rfl <;> rfl

theorem buildGarminTarget_isSome {t : JTarget}
    (h : hasType VALID_TARGET_TYPES t.type = true)
    (hpMin : (t.type == some "pace") = true →
      jsFalsyPace (parsePaceToMps (t.minPerKm.getD "")) = false)
    (hpMax : (t.type == some "pace") = true →
      jsFalsyPace (parsePaceToMps (t.maxPerKm.getD "")) = false) :
    (buildGarminTarget (some t)).isSome = true := by
  obtain ⟨ty, hty, hmem⟩ := hasType_eq_true h
  show (buildGarminTargetObj t).isSome = true
  unfold buildGarminTargetObj
  rw [hty]
  simp only [VALID_TARGET_TYPES, List.mem_cons, List.not_mem_nil, or_false] at hmem
  rcases hmem with rfl | rfl | rfl | rfl | rfl | rfl | rfl
  · rfl
  · obtain ⟨a, ha, ha0⟩ := jsFalsyPace_eq_false (hpMin (by rw [hty]; rfl))
    obtain ⟨b, hb, hb0⟩ := jsFalsyPace_eq_false (hpMax (by rw [hty]; rfl))
    simp only [String.reduceEq, reduceIte]
    rw [ha, hb]
    simp only []
    rw [if_neg (by push_neg; exact ⟨ha0, hb0⟩)]
    rfl
  · rfl
  · rfl
  · rfl
  · rfl
  · rfl

/-- The facts extracted from a passing regular-step validation that the
builders need. -/
theorem validateRegularStep_parts {s : JStep}
    (h : validateRegularStep s = none) :
    (∃ d, s.duration = some d ∧ hasType VALID_DURATION_TYPES d.type = true) ∧
    (∃ t, s.target = some t ∧ hasType VALID_TARGET_TYPES t.type = true ∧
      ((t.type == some "pace") = true →
        jsFalsyPace (parsePaceToMps (t.minPerKm.getD "")) = false ∧
        jsFalsyPace (parsePaceToMps (t.maxPerKm.getD "")) = false)) := by
  unfold validateRegularStep at h
  cases hd : s.duration with
  | none => rw [hd] at h; exact Option.noConfusion h
  | some d =>
    rw [hd] at h
    simp only [] at h
    obtain ⟨hc1, h⟩ := cond_error_eq_none h
    obtain ⟨_, h⟩ := cond_error_eq_none h
    obtain ⟨_, h⟩ := cond_error_eq_none h
    obtain ⟨_, h⟩ := cond_error_eq_none h
    obtain ⟨_, h⟩ := cond_error_eq_none h
    obtain ⟨_, h⟩ := cond_error_eq_none h
    refine ⟨⟨d, rfl, by simpa using hc1⟩, ?_⟩
    cases ht : s.target with
    | none => rw [ht] at h; exact Option.noConfusion h
    | some t =>
      rw [ht] at h
      simp only [] at h
      obtain ⟨hc2, h⟩ := cond_error_eq_none h
      obtain ⟨hp1, h⟩ := cond_error_eq_none h
      obtain ⟨hp2, h⟩ := cond_error_eq_none h
      refine ⟨t, rfl, by simpa using hc2, fun hpace => ?_⟩
      constructor
      · rcases Bool.and_eq_false_iff.mp hp1 with hx | hx
        · rw [hpace] at hx
          exact absurd hx (by simp)
        · exact hx
      · rcases Bool.and_eq_false_iff.mp hp2 with hx | hx
        · rw [hpace] at hx
          exact absurd hx (by simp)
        · exact hx

theorem buildGarminStep_isSome {s : JStep} (k : ℕ)
    (h : validateChildStep s = none) :
    (buildGarminStep s k).isSome = true := by
  unfold validateChildStep at h
  by_cases h1 : hasType VALID_STEP_TYPES s.type
  · rw [if_neg (by simp [h1])] at h
    by_cases h2 : (s.type == some "repeat") = true
    · rw [if_pos h2] at h
      exact Option.noConfusion h
    · rw [if_neg h2] at h
      obtain ⟨⟨d, hd, hdty⟩, ⟨t, ht, htty, hpace⟩⟩ := validateRegularStep_parts h
      obtain ⟨ty, hty, hmem⟩ := hasType_eq_true h1
      have hne : ty ≠ "repeat" := by
        intro he
        subst he
        rw [hty] at h2
        exact h2 (by rfl)
      have hst : (stepTypeOf s.type).isSome = true := by
        unfold stepTypeOf
        rw [hty]
        simp only [VALID_STEP_TYPES, STEP_TYPE_MAP, List.map_cons, List.map_nil,
          List.cons_append, List.nil_append, List.mem_cons, List.not_mem_nil,
          or_false] at hmem
        rcases hmem with rfl | rfl | rfl | rfl | rfl | rfl | rfl
        · rfl
        · rfl
        · rfl
        · rfl
        · rfl
        · rfl
        · exact absurd rfl hne
      have hdur : (buildGarminDuration s.duration).isSome = true := by
        rw [hd]
        exact buildGarminDuration_isSome hdty
      have htgt : (buildGarminTarget s.target).isSome = true := by
        rw [ht]
        refine buildGarminTarget_isSome htty ?_ ?_
        · exact fun hp => (hpace hp).1
        · exact fun hp => (hpace hp).2
      unfold buildGarminStep
      obtain ⟨st, hstv⟩ := Option.isSome_iff_exists.mp hst
      obtain ⟨dur, hdv⟩ := Option.isSome_iff_exists.mp hdur
      obtain ⟨tgt, htv⟩ := Option.isSome_iff_exists.mp htgt
      rw [hstv, hdv, htv]
      rfl
  · rw [if_pos (by simp [h1])] at h
    exact Option.noConfusion h

theorem firstChildError_eq_none {l : List JStep}
    (h : firstChildError l = none) : ∀ c ∈ l, validateChildStep c = none := by
  induction l with
  | nil => intro c hc; exact absurd hc (List.not_mem_nil c)
  | cons c rest ih =>
    intro c2 hc2
    simp only [firstChildError] at h
    cases hv : validateChildStep c with
    | some e => rw [hv] at h; exact Option.noConfusion h
    | none =>
      rw [hv] at h
      rcases List.mem_cons.mp hc2 with rfl | htail
      · exact hv
      · exact ih h c2 htail

theorem buildGarminChildSteps_isSome {l : List JStep}
    (h : ∀ c ∈ l, validateChildStep c = none) :
    ∀ k, (buildGarminChildSteps l k).isSome = true := by
  induction l with
  | nil => intro k; rfl
  | cons c rest ih =>
    intro k
    have hb := buildGarminStep_isSome k (h c (List.mem_cons_self c rest))
    obtain ⟨built, hbv⟩ := Option.isSome_iff_exists.mp hb
    have hr := ih (fun c2 hc2 => h c2 (List.mem_cons_of_mem _ hc2)) (k + 1)
    obtain ⟨r, hrv⟩ := Option.isSome_iff_exists.mp hr
    obtain ⟨bs, m⟩ := r
    simp only [buildGarminChildSteps]
    rw [hbv, hrv]
    rfl

theorem buildGarminRepeatGroup_isSome {s : JStep} (k : ℕ)
    (hrep : s.type = some "repeat")
    (h : validateWorkoutStep s true = none) :
    (buildGarminRepeatGroup s k).isSome = true := by
  unfold validateWorkoutStep at h
  rw [hrep] at h
  simp only [hasType, VALID_STEP_TYPES, STEP_TYPE_MAP] at h
  rw [if_neg (by decide)] at h
  rw [if_pos (by rfl)] at h
  rw [if_neg (by decide)] at h
  obtain ⟨_, h⟩ := cond_error_eq_none h
  cases hsteps : s.steps with
  | none => rw [hsteps] at h; exact Option.noConfusion h
  | some children =>
    rw [hsteps] at h
    cases children with
    | nil => exact Option.noConfusion h
    | cons c cs =>
      simp only [] at h
      have hall := firstChildError_eq_none h
      have hcs := buildGarminChildSteps_isSome hall (k + 1)
      obtain ⟨r, hrv⟩ := Option.isSome_iff_exists.mp hcs
      unfold buildGarminRepeatGroup
      rw [hsteps]
      simp only [Option.getD_some]
      rw [hrv]
      rfl

theorem buildGarminSteps_isSome {l : List JStep}
    (h : ∀ s ∈ l, validateWorkoutStep s true = none) :
    ∀ k, (buildGarminSteps l k).isSome = true := by
  induction l with
  | nil => intro k; rfl
  | cons s rest ih =>
    intro k
    have hs := h s (List.mem_cons_self s rest)
    have hrest := ih (fun s2 hs2 => h s2 (List.mem_cons_of_mem _ hs2))
    simp only [buildGarminSteps]
    by_cases hrep : s.type = some "repeat"
    · rw [if_pos hrep]
      have hg := buildGarminRepeatGroup_isSome k hrep hs
      obtain ⟨group, hgv⟩ := Option.isSome_iff_exists.mp hg
      rw [hgv]
      simp only []
      have hr := hrest group.nextId
      obtain ⟨r, hrv⟩ := Option.isSome_iff_exists.mp hr
      obtain ⟨ns, n⟩ := r
      rw [hrv]
      rfl
    · rw [if_neg hrep]
      have hchild : validateChildStep s = none := by
        rw [← validateWorkoutStep_false]
        unfold validateWorkoutStep at hs ⊢
        by_cases h1 : hasType VALID_STEP_TYPES s.type
        · rw [if_neg (by simp [h1])] at hs ⊢
          have h2 : (s.type == some "repeat") = false := by
            rw [Bool.eq_false_iff]
            intro hbeq
            exact hrep (eq_of_beq hbeq)
          rw [if_neg (by simp [h2])] at hs ⊢
          exact hs
        · rw [if_pos (by simp [h1])] at hs
          exact Option.noConfusion hs
      have hb := buildGarminStep_isSome k hchild
      obtain ⟨built, hbv⟩ := Option.isSome_iff_exists.mp hb
      rw [hbv]
      simp only []
      have hr := hrest (k + 1)
      obtain ⟨r, hrv⟩ := Option.isSome_iff_exists.mp hr
      obtain ⟨ns, n⟩ := r
      rw [hrv]
      rfl

theorem validateStepsFrom_eq_none {l : List JStep} :
    ∀ i, validateStepsFrom l i = none →
      ∀ s ∈ l, validateWorkoutStep s true = none := by
  induction l with
  | nil => intro i _ s hs; exact absurd hs (List.not_mem_nil s)
  | cons s rest ih =>
    intro i h s2 hs2
    simp only [validateStepsFrom] at h
    cases hv : validateWorkoutStep s true with
    | some e => rw [hv] at h; exact Option.noConfusion h
    | none =>
      rw [hv] at h
      rcases List.mem_cons.mp hs2 with rfl | htail
      · exact hv
      · exact ih (i + 1) h s2 htail

/-- C5: every DSL workout accepted by `validateWorkoutPayload` compiles —
`buildGarminWorkout` returns a workout (no null-returning branch of the
step, duration, target or repeat-group builders is reachable under the
validation precondition). -/
theorem claim_C5_validation_implies_build (w : JWorkout)
    (h : (validateWorkoutPayload w).ok = true) :
    (buildGarminWorkout w).isSome = true := by
  unfold validateWorkoutPayload at h
  cases hn : w.name with
  | none =>
    rw [hn] at h
    exact absurd h (by simp)
  | some nm =>
    rw [hn] at h
    simp only [] at h
    by_cases htrim : jsTrim nm = ""
    · rw [if_pos htrim] at h
      exact absurd h (by simp)
    · rw [if_neg htrim] at h
      by_cases hsport : hasType VALID_SPORTS w.sport
      · rw [if_neg (by simp [hsport])] at h
        cases hsteps : w.steps with
        | none =>
          rw [hsteps] at h
          exact absurd h (by simp)
        | some steps =>
          rw [hsteps] at h
          cases steps with
          | nil => simp only [] at h; exact absurd h (by simp)
          | cons s rest =>
            simp only [] at h
            cases hv : validateStepsFrom (s :: rest) 0 with
            | some e =>
              rw [hv] at h
              exact absurd h (by simp)
            | none =>
              have hall := validateStepsFrom_eq_none 0 hv
              have hbuild := buildGarminSteps_isSome hall 1
              obtain ⟨r, hrv⟩ := Option.isSome_iff_exists.mp hbuild
              obtain ⟨ns, n⟩ := r
              unfold buildGarminWorkout
              rw [hsteps]
              simp only [Option.getD_some]
              rw [hrv]
              rfl
      · rw [if_pos (by simp [hsport])] at h
        exact absurd h (by simp)

/-- Witness for C5: the warmup / repeat / cooldown workout passes
validation and compiles. -/
theorem claim_C5_witness :
    (validateWorkoutPayload exampleRepeatWorkout).ok = true ∧
    (buildGarminWorkout exampleRepeatWorkout).isSome = true :=
  ⟨rfl, claim_C5_validation_implies_build exampleRepeatWorkout rfl⟩
